import Mathlib

/-!
# Shallow embedding of the dispatch core of `src/backend/main.py`

This file embeds the data model and the operations of the route-optimization
backend in Lean 4 and proves properties of them.

Modelling conventions:
* Python floats are modelled as exact rationals (`ℚ`).
* The transcendental float computations (`haversine`, `math.atan2`, and the
  constant `math.radians(30)`) are abstracted as an oracle record `Geo`;
  every theorem is stated for an arbitrary oracle, and concrete scenarios
  instantiate it with explicitly chosen rational values.
* Python object references into `world_state.hubs` / `world_state.trucks`
  are modelled as list positions; lookups of the form
  `next((h for h in world_state.hubs if h.id == hid), None)` are modelled
  as first-match searches, exactly as in the source.
* `print` logging has no observable effect and is dropped; the appends to
  `world_state.ai_decisions` are kept.
* Fields of `Truck` that none of the embedded operations read or write
  (`starting_latitude/longitude`, `cost_per_km`, `max_deliveries`, `speed`,
  `route`, `full_route`, `current_route_index`, `fuel_efficiency`,
  `current_fuel_used`, `last_decision_point`, `instructions`,
  `instruction_status`, `disaster_notifications`, `blocked_status`) and the
  `disasters` list of `WorldState` are omitted from the model.
-/

namespace RouteOpt

/-- Oracle for the real-valued math primitives of the source: the great-circle
distance `haversine`, `math.atan2`, and `ANGLE_THRESHOLD = math.radians(30)`.
These are transcendental float computations; the embedding treats them as an
arbitrary rational-valued black box, mirroring how the source treats them as
opaque numeric subroutines. -/
structure Geo where
  haversine : ℚ → ℚ → ℚ → ℚ → ℚ
  atan2 : ℚ → ℚ → ℚ
  angleThreshold : ℚ

/-- `CENTRAL_HUB["id"]`. -/
def centralHubId : String := "CENTRAL_DEPOT"

/-- `CENTRAL_HUB["latitude"] = 10.7905`. -/
def centralHubLatitude : ℚ := 107905 / 10000

/-- `CENTRAL_HUB["longitude"] = 78.7047`. -/
def centralHubLongitude : ℚ := 787047 / 10000

/-- `FUEL_CONSUMPTION_RATE = 0.1` (litres per km). -/
def FUEL_CONSUMPTION_RATE : ℚ := 1 / 10

namespace HubOwnershipState

def UNASSIGNED : String := "UNASSIGNED"

def ASSIGNED : String := "ASSIGNED"

def COMPLETED : String := "COMPLETED"

end HubOwnershipState

/-- The `Hub` pydantic model. -/
structure Hub where
  id : String
  name : String
  latitude : ℚ
  longitude : ℚ
  demand_quantity : Int
  demand_priority : String
  availability : Int
  priority_cost : ℚ
  delivered : Bool
  demand_intensity : String
  ownership_state : String
  owner_truck_id : Option String
  frozen_at_commit : Bool
deriving DecidableEq, Repr

/-- The `Task` pydantic model: a single delivery task. -/
structure Task where
  hub_id : String
  urgency_weight : ℚ
  assigned_at : ℚ
deriving DecidableEq, Repr

/-- The `Truck` pydantic model, restricted to the fields the embedded
operations touch. -/
structure Truck where
  id : String
  fuel_capacity : ℚ
  current_latitude : ℚ
  current_longitude : ℚ
  fuel_remaining : ℚ
  active : Bool
  assigned_hubs : List String
  route_plan : List String
  completed_deliveries : List String
  current_task : Option Task
  future_task_queue : List Task
  status : String
  max_capacity : Int
deriving DecidableEq, Repr

/-- The `AIDecision` pydantic model (the decision log entries). -/
structure AIDecision where
  truck_id : String
  decision : String
  explanation : String
  timestamp : ℚ
deriving DecidableEq, Repr

/-- The `WorldState` pydantic model (without the disaster list, which no
embedded operation touches). -/
structure WorldState where
  hubs : List Hub
  trucks : List Truck
  ai_decisions : List AIDecision
  simulation_running : Bool
  simulation_time : ℚ
  initial_hubs_with_demand : List String
  simulation_phase : String
  hubs_frozen : Bool
deriving DecidableEq, Repr

/-- The weight table of `get_urgency_weight`. -/
def urgencyWeights : List (String × ℚ) :=
  [("Low", 1), ("Medium", 2), ("High", 4), ("Emergency", 10)]

/-- `get_urgency_weight`: convert demand intensity to a numeric urgency
weight; `weights.get(intensity, 2.0)`. -/
def get_urgency_weight (intensity : String) : ℚ :=
  (urgencyWeights.lookup intensity).getD 2

/-- `is_at_safe_decision_point`: while `moving`, never; `idle`, always;
otherwise exactly when within `0.01` degrees of the central depot. -/
def is_at_safe_decision_point (truck : Truck) : Bool :=
  if truck.status = "moving" then false
  else if truck.status = "idle" then true
  else
    decide (|truck.current_latitude - centralHubLatitude| < 1 / 100 ∧
            |truck.current_longitude - centralHubLongitude| < 1 / 100)

/-- First-match hub lookup:
`next((h for h in world_state.hubs if h.id == hub_id), None)`. -/
def findHub (hubs : List Hub) (hub_id : String) : Option Hub :=
  hubs.find? (fun h => h.id = hub_id)

/-- Mutate the first hub in the list whose id matches, as Python's mutation
through the reference returned by `findHub` does. -/
def updateHub (hubs : List Hub) (hub_id : String) (f : Hub → Hub) : List Hub :=
  match hubs with
  | [] => []
  | h :: rest => if h.id = hub_id then f h :: rest else h :: updateHub rest hub_id f

/-- `is_hub_available_for_assignment`: not the depot, positive remaining
demand, not delivered, and `UNASSIGNED`. -/
def is_hub_available_for_assignment (hub : Hub) : Bool :=
  if hub.id = centralHubId then false
  else if hub.delivered || decide (hub.demand_quantity ≤ 0) then false
  else decide (hub.ownership_state = HubOwnershipState.UNASSIGNED)

/-- `assign_hub_to_truck`: the single choke point granting ownership.
Returns the Python return value together with the updated world state. -/
def assign_hub_to_truck (w : WorldState) (hub_id truck_id : String) :
    Bool × WorldState :=
  match findHub w.hubs hub_id with
  | none => (false, w)
  | some hub =>
    if hub.ownership_state = HubOwnershipState.ASSIGNED then
      if hub.owner_truck_id = some truck_id then (true, w) else (false, w)
    else if hub.ownership_state = HubOwnershipState.COMPLETED then (false, w)
    else
      (true, { w with hubs := updateHub w.hubs hub_id (fun h =>
        { h with ownership_state := HubOwnershipState.ASSIGNED,
                 owner_truck_id := some truck_id }) })

/-- `release_hub_ownership`: `mark_completed=True` sets `COMPLETED` and
`delivered`; otherwise sets `UNASSIGNED`; clears the owner in both cases. -/
def release_hub_ownership (w : WorldState) (hub_id : String)
    (mark_completed : Bool) : Bool × WorldState :=
  match findHub w.hubs hub_id with
  | none => (false, w)
  | some _ =>
    (true, { w with hubs := updateHub w.hubs hub_id (fun h =>
      if mark_completed then
        { h with ownership_state := HubOwnershipState.COMPLETED,
                 delivered := true, owner_truck_id := none }
      else
        { h with ownership_state := HubOwnershipState.UNASSIGNED,
                 owner_truck_id := none }) })

/-- `is_fuel_feasible_with_return`: enough fuel to reach the hub and return
to the depot. -/
def is_fuel_feasible_with_return (geo : Geo) (truck : Truck) (hub : Hub) :
    Bool :=
  let dist_to_hub := geo.haversine truck.current_latitude truck.current_longitude
    hub.latitude hub.longitude
  let dist_to_depot := geo.haversine hub.latitude hub.longitude
    centralHubLatitude centralHubLongitude
  decide (truck.fuel_remaining ≥ (dist_to_hub + dist_to_depot) * FUEL_CONSUMPTION_RATE)

/-- `reorder_task_queue_at_decision_point`: at a safe decision point, drop
queued tasks for hubs the truck does not own, refresh each remaining task's
urgency weight from its hub's current intensity, and stable-sort by urgency
descending.  (The trailing fuel-feasibility check of the source only prints
a warning and is dropped.)  The source mutates the truck in place; the
embedding returns the updated truck. -/
def reorder_task_queue_at_decision_point (hubs : List Hub) (truck : Truck) :
    Truck :=
  if ¬ is_at_safe_decision_point truck then truck
  else if truck.future_task_queue.isEmpty then truck
  else
    let valid_tasks := truck.future_task_queue.filterMap (fun task =>
      match findHub hubs task.hub_id with
      | some hub =>
        if hub.ownership_state = HubOwnershipState.ASSIGNED ∧
            hub.owner_truck_id = some truck.id then
          some { task with urgency_weight := get_urgency_weight hub.demand_intensity }
        else none
      | none => none)
    { truck with future_task_queue :=
        valid_tasks.mergeSort (fun a b => decide (b.urgency_weight ≤ a.urgency_weight)) }

/-- Mutate the truck stored at position `i`, as Python's mutation through an
object reference into `world_state.trucks` does. -/
def updateTruckAt (trucks : List Truck) (i : Nat) (f : Truck → Truck) :
    List Truck :=
  match trucks[i]? with
  | none => trucks
  | some t => trucks.set i (f t)

/-- The candidate cost of `handle_demand_escalation`'s UNASSIGNED case:
`dist_to_hub + len(future_task_queue) * 50`, plus the `100` penalty when the
truck is not at a safe decision point. -/
def escalationCost (geo : Geo) (hub : Hub) (t : Truck) : ℚ :=
  geo.haversine t.current_latitude t.current_longitude hub.latitude hub.longitude +
    (t.future_task_queue.length : ℚ) * 50 +
    (if is_at_safe_decision_point t then 0 else 100)

/-- One iteration of the truck scan: skip inactive trucks and trucks failing
the round-trip fuel check; keep the strictly cheapest candidate (first wins
on ties, as in the `cost < best_cost` comparison against an initial
`inf`). -/
def escalationStep (geo : Geo) (hub : Hub) (best : Option (Nat × ℚ))
    (p : Nat × Truck) : Option (Nat × ℚ) :=
  if ¬ p.2.active then best
  else if ¬ is_fuel_feasible_with_return geo p.2 hub then best
  else
    let cost := escalationCost geo hub p.2
    match best with
    | none => some (p.1, cost)
    | some (bi, bc) => if cost < bc then some (p.1, cost) else some (bi, bc)

/-- The full truck scan of `handle_demand_escalation`'s UNASSIGNED case. -/
def escalationBestTruck (geo : Geo) (trucks : List Truck) (hub : Hub) :
    Option (Nat × ℚ) :=
  trucks.enum.foldl (escalationStep geo hub) none

/-- `handle_demand_escalation`: reconcile a hub whose demand intensity was
raised.  CASE 1 (hub `ASSIGNED`): refresh the urgency weight of the owning
truck's matching queue entries and, at a safe decision point, reorder its
queue; CASE 2 (hub `UNASSIGNED` and not frozen): assign the hub to the
cheapest feasible truck and hand it the new task. -/
def handle_demand_escalation (geo : Geo) (w : WorldState)
    (escalated_hub_id : String) : WorldState :=
  match findHub w.hubs escalated_hub_id with
  | none => w
  | some escalated_hub =>
    let urgency := get_urgency_weight escalated_hub.demand_intensity
    if escalated_hub.ownership_state = HubOwnershipState.ASSIGNED then
      -- CASE 1: hub is already ASSIGNED
      match escalated_hub.owner_truck_id with
      | none => w  -- `next((t for t in trucks if t.id == None), None)` finds nothing
      | some owner_truck_id =>
        match w.trucks.findIdx? (fun t => t.id = owner_truck_id) with
        | none => w
        | some i =>
          match w.trucks[i]? with
          | none => w
          | some owner_truck =>
            let t1 := { owner_truck with future_task_queue :=
              owner_truck.future_task_queue.map (fun task =>
                if task.hub_id = escalated_hub_id then
                  { task with urgency_weight := urgency }
                else task) }
            let t2 :=
              if is_at_safe_decision_point t1 then
                reorder_task_queue_at_decision_point w.hubs t1
              else t1
            { w with trucks := w.trucks.set i t2,
                     ai_decisions := w.ai_decisions ++
                       [{ truck_id := owner_truck_id,
                          decision := "URGENCY_UPDATED",
                          explanation := "Owned hub " ++ escalated_hub.name ++
                            " escalated to " ++ escalated_hub.demand_intensity ++
                            " - will be prioritized",
                          timestamp := w.simulation_time }] }
    else if escalated_hub.ownership_state ≠ HubOwnershipState.UNASSIGNED then
      w  -- hub is COMPLETED or in an invalid state
    else if escalated_hub.frozen_at_commit then
      w  -- execution-rule violation: only reported, never acted on
    else
      -- CASE 2: hub is UNASSIGNED: find one truck to assign it to
      match escalationBestTruck geo w.trucks escalated_hub with
      | none => w
      | some (i, _) =>
        match w.trucks[i]? with
        | none => w
        | some best_truck =>
          let (ok, w1) := assign_hub_to_truck w escalated_hub_id best_truck.id
          if ¬ ok then w1
          else
            let new_task : Task :=
              { hub_id := escalated_hub_id, urgency_weight := urgency,
                assigned_at := w.simulation_time }
            let t2 :=
              if best_truck.status = "idle" ∧ best_truck.current_task = none then
                { best_truck with current_task := some new_task }
              else
                let ta := { best_truck with future_task_queue :=
                  best_truck.future_task_queue ++ [new_task] }
                if is_at_safe_decision_point ta then
                  reorder_task_queue_at_decision_point w1.hubs ta
                else ta
            { w1 with trucks := updateTruckAt w1.trucks i (fun _ => t2),
                      ai_decisions := w1.ai_decisions ++
                        [{ truck_id := best_truck.id,
                           decision := "EMERGENCY_ASSIGNED",
                           explanation := "Emergency hub " ++ escalated_hub.name ++
                             " assigned with guaranteed ownership",
                           timestamp := w.simulation_time }] }

/-- Python's `round` (banker's rounding: ties go to the even integer). -/
def pyRound (q : ℚ) : Int :=
  let fl := ⌊q⌋
  if q - fl < 1 / 2 then fl
  else if 1 / 2 < q - fl then fl + 1
  else if 2 ∣ fl then fl else fl + 1

/-- One entry of the `hub_info` list built by `assign_hubs_to_trucks`.
`idx` is the position of the hub in `world_state.hubs` (the Python object
reference); `hub_id` is its id, copied at build time (ids are immutable, so
this equals every later live read through the reference). -/
structure HubInfo where
  idx : Nat
  hub_id : String
  distance_km : ℚ
  angle : ℚ
  demand_count : Int
deriving DecidableEq, Repr

/-- Build `hub_info` for the hubs requiring assignment: every non-depot hub
with positive demand, in world order, with its depot distance, bearing angle
and deliverable demand `min(demand_quantity, availability)`. -/
def buildHubInfo (geo : Geo) (hubs : List Hub) : List HubInfo :=
  hubs.enum.filterMap (fun p =>
    let hub := p.2
    if hub.id ≠ centralHubId ∧ 0 < hub.demand_quantity then
      some { idx := p.1, hub_id := hub.id,
             distance_km := geo.haversine centralHubLatitude centralHubLongitude
               hub.latitude hub.longitude,
             angle := geo.atan2 (hub.latitude - centralHubLatitude)
               (hub.longitude - centralHubLongitude),
             demand_count := min hub.demand_quantity hub.availability }
    else none)

/-- `angle_bin = round(angle / ANGLE_THRESHOLD)`. -/
def angleBin (geo : Geo) (d : HubInfo) : Int :=
  pyRound (d.angle / geo.angleThreshold)

/-- The keys of a Python `defaultdict` in iteration order: order of first
occurrence. -/
def firstOccurrencesAux : Nat → List Int → List Int
  | 0, _ => []
  | _, [] => []
  | fuel + 1, k :: rest => k :: firstOccurrencesAux fuel (rest.filter (fun x => x ≠ k))

def firstOccurrences (l : List Int) : List Int :=
  firstOccurrencesAux l.length l

/-- `priority_order = {"Emergency": 0, "High": 1, "Medium": 2, "Low": 3}`. -/
def priority_order : List (String × Nat) :=
  [("Emergency", 0), ("High", 1), ("Medium", 2), ("Low", 3)]

/-- `priority_order.get(p, 2)`. -/
def priorityRank (p : String) : Nat :=
  (priority_order.lookup p).getD 2

/-- The live read `x['hub'].demand_priority` used by the corridor sort key
(position `i` is always in range when reached). -/
def priorityAt (hubs : List Hub) (i : Nat) : String :=
  match hubs[i]? with
  | some h => h.demand_priority
  | none => ""

/-- Sort the hubs of one corridor by
`(priority_order.get(priority, 2), distance_km)` ascending; Python's sort is
stable, as is `mergeSort`. -/
def corridorSort (hubs : List Hub) (l : List HubInfo) : List HubInfo :=
  l.mergeSort (fun a b =>
    let ra := priorityRank (priorityAt hubs a.idx)
    let rb := priorityRank (priorityAt hubs b.idx)
    decide (ra < rb ∨ (ra = rb ∧ a.distance_km ≤ b.distance_km)))

/-- `len(truck.route_plan) < truck.max_capacity`. -/
def hasCapacity (t : Truck) : Bool :=
  decide ((t.route_plan.length : Int) < t.max_capacity)

/-- `for _ in range(demand_count): if len(route_plan) < max_capacity:
route_plan.append(hub_id)`. -/
def appendCapped (t : Truck) (hub_id : String) (demand_count : Int) : Truck :=
  let room := t.max_capacity - (t.route_plan.length : Int)
  { t with route_plan := t.route_plan ++
      List.replicate (min demand_count room).toNat hub_id }

/-- Corridor truck selection: among active trucks with remaining capacity,
minimize the approach cost to the corridor's first hub (from the depot when
the route plan is empty, else from the plan's last hub; a dangling last hub
id gives `float('inf')`, modelled as `none`). Strict `<` against an initial
`inf` keeps the first minimizer. -/
def selectCorridorTruck (geo : Geo) (w : WorldState) (activeIdxs : List Nat)
    (first_hub : Hub) : Option (Nat × ℚ) :=
  activeIdxs.foldl (fun best ti =>
    match w.trucks[ti]? with
    | none => best
    | some t =>
      if ¬ hasCapacity t then best
      else
        let cost : Option ℚ :=
          if t.route_plan.isEmpty then
            some (geo.haversine centralHubLatitude centralHubLongitude
              first_hub.latitude first_hub.longitude)
          else
            match t.route_plan.getLast? with
            | none => none
            | some last_hub_id =>
              match findHub w.hubs last_hub_id with
              | none => none
              | some last_hub =>
                some (geo.haversine last_hub.latitude last_hub.longitude
                  first_hub.latitude first_hub.longitude)
        match cost with
        | none => best
        | some c =>
          match best with
          | none => some (ti, c)
          | some (bi, bc) => if c < bc then some (ti, c) else some (bi, bc))
    none

/-- One hub of the phase-1 corridor loop: switch to the first active truck
with capacity when the current corridor truck is full (skipping the hub when
none has capacity, keeping the current corridor truck), then `assign` and
append one route-plan slot per deliverable unit. State: world, the
`assigned_hubs` set, and the current corridor truck. -/
def corridorHubStep (activeIdxs : List Nat)
    (st : WorldState × List String × Nat) (d : HubInfo) :
    WorldState × List String × Nat :=
  let w := st.1
  let assigned := st.2.1
  let curT := st.2.2
  match w.trucks[curT]? with
  | none => st
  | some t =>
    let switch : Option Nat :=
      if hasCapacity t then some curT
      else activeIdxs.find? (fun ai =>
        match w.trucks[ai]? with
        | some a => hasCapacity a
        | none => false)
    match switch with
    | none => st  -- no truck with capacity: leave for the fallback pass
    | some ct =>
      match w.trucks[ct]? with
      | none => (w, assigned, ct)
      | some truck =>
        let (ok, w') := assign_hub_to_truck w d.hub_id truck.id
        if ok then
          let trucks' := updateTruckAt w'.trucks ct
            (fun tr => appendCapped tr d.hub_id d.demand_count)
          ({ w' with trucks := trucks' }, assigned ++ [d.hub_id], ct)
        else (w', assigned, ct)

/-- Phase 1 for one corridor: pick the corridor truck, then assign every hub
of the corridor in order. -/
def corridorStep (geo : Geo) (activeIdxs : List Nat)
    (st : WorldState × List String) (corridor : List HubInfo) :
    WorldState × List String :=
  match corridor with
  | [] => st
  | d0 :: _ =>
    let w := st.1
    match w.hubs[d0.idx]? with
    | none => st
    | some first_hub =>
      match selectCorridorTruck geo w activeIdxs first_hub with
      | none => st  -- no truck with capacity: handled in fallback
      | some (t0, _) =>
        let r := corridor.foldl (corridorHubStep activeIdxs) (st.1, st.2, t0)
        (r.1, r.2.1)

/-- One hub of the phase-2 fallback pass: among active trucks with capacity,
minimize the depot-to-hub distance (which does not depend on the truck, so
the first truck with capacity wins), then `assign` and append route-plan
slots. -/
def fallbackBest (geo : Geo) (activeIdxs : List Nat) (w : WorldState)
    (hub : Hub) : Option (Nat × ℚ) :=
  activeIdxs.foldl (fun b ti =>
    match w.trucks[ti]? with
    | none => b
    | some t =>
      if ¬ hasCapacity t then b
      else
        let dist := geo.haversine centralHubLatitude centralHubLongitude
          hub.latitude hub.longitude
        match b with
        | none => some (ti, dist)
        | some (bi, bd) => if dist < bd then some (ti, dist) else some (bi, bd))
    none

def fallbackStep (geo : Geo) (activeIdxs : List Nat)
    (st : WorldState × List String) (d : HubInfo) : WorldState × List String :=
  let w := st.1
  let assigned := st.2
  match w.hubs[d.idx]? with
  | none => st
  | some hub =>
    match fallbackBest geo activeIdxs w hub with
    | none => st  -- no truck with capacity for this hub
    | some (bt, _) =>
      match w.trucks[bt]? with
      | none => st
      | some best_truck =>
        let (ok, w') := assign_hub_to_truck w d.hub_id best_truck.id
        if ok then
          let demand_count := min hub.demand_quantity hub.availability
          let trucks' := updateTruckAt w'.trucks bt
            (fun tr => appendCapped tr d.hub_id demand_count)
          ({ w' with trucks := trucks' }, assigned ++ [d.hub_id])
        else (w', assigned)

/-- Mutate the hub stored at position `i` (a Python object reference into
`world_state.hubs`). -/
def updateHubAt (hubs : List Hub) (i : Nat) (f : Hub → Hub) : List Hub :=
  match hubs[i]? with
  | none => hubs
  | some h => hubs.set i (f h)

/-- Phases 1-4 of `assign_hubs_to_trucks`: corridor clustering, fallback
assignment, validation and freezing. -/
def commitPhases (geo : Geo) (activeIdxs : List Nat) (hubInfo : List HubInfo)
    (w1 : WorldState) : Bool × WorldState :=
  -- corridor clustering: 30-degree angular bins, each sorted by
  -- (priority class, depot distance)
  let keys := firstOccurrences (hubInfo.map (angleBin geo))
  let corridors := keys.map (fun k =>
    corridorSort w1.hubs (hubInfo.filter (fun d => angleBin geo d = k)))
  -- PHASE 1: cluster-based assignment
  let p1 := corridors.foldl (corridorStep geo activeIdxs) (w1, [])
  -- PHASE 2: fallback assignment for hubs missed by clustering
  let unassigned := hubInfo.filter (fun d => ¬ d.hub_id ∈ p1.2)
  let p2 := unassigned.foldl (fallbackStep geo activeIdxs) p1
  let w3 := p2.1
  -- PHASE 3: commit validation
  if ¬ hubInfo.all (fun d =>
      match w3.hubs[d.idx]? with
      | some h => h.ownership_state = HubOwnershipState.ASSIGNED
      | none => false) then
    (false, w3)
  else
    -- PHASE 4: freeze all initial hubs
    (true, { w3 with
      hubs := hubInfo.foldl (fun hs d =>
        updateHubAt hs d.idx (fun h => { h with frozen_at_commit := true })) w3.hubs,
      initial_hubs_with_demand := hubInfo.map (fun d => d.hub_id) })

/-- `assign_hubs_to_trucks`: the commit phase.  Returns the commit result
together with the (possibly partially mutated) world state; on `False` the
caller must roll back.  NOTE: as in the source, no pass of this function
consults `is_fuel_feasible_with_return` — the only per-truck constraint is
the `max_capacity` route-plan bound. -/
def assign_hubs_to_trucks (geo : Geo) (w0 : WorldState) : Bool × WorldState :=
  let hubInfo := buildHubInfo geo w0.hubs
  if hubInfo.isEmpty then
    -- no hubs to assign: commit trivially succeeds, all trucks reset
    let resetAll := fun (t : Truck) =>
      { t with route_plan := ([] : List String), assigned_hubs := ([] : List String),
               status := "idle" }
    (true, { w0 with trucks := w0.trucks.map resetAll })
  else
    -- reset all active truck states
    let resetActive := fun (t : Truck) =>
      if t.active then
        { t with route_plan := ([] : List String), assigned_hubs := ([] : List String),
                 completed_deliveries := ([] : List String), status := "idle" }
      else t
    let w1 := { w0 with trucks := w0.trucks.map resetActive }
    let activeIdxs := w1.trucks.enum.filterMap (fun p =>
      if p.2.active then some p.1 else none)
    if activeIdxs.isEmpty then (false, w1)
    else commitPhases geo activeIdxs hubInfo w1

/-- The hub reset of `start_sim`'s rollback branch: every non-central hub
becomes `UNASSIGNED`, unowned and unfrozen. -/
def rollbackHub (h : Hub) : Hub :=
  if h.id = centralHubId then h
  else { h with ownership_state := HubOwnershipState.UNASSIGNED,
                owner_truck_id := none, frozen_at_commit := false }

/-- `initialize_task_queues_from_route_plans` (source name): convert each
active truck's route plan into its task queue, making the first task current
when the truck is idle. -/
def task_queues_from_route_plans (w : WorldState) : WorldState :=
  { w with trucks := w.trucks.map (fun t =>
      if ¬ t.active then t
      else
        let queue : List Task := t.route_plan.filterMap (fun hub_id =>
          (findHub w.hubs hub_id).map (fun hub =>
            { hub_id := hub_id,
              urgency_weight := get_urgency_weight hub.demand_intensity,
              assigned_at := w.simulation_time }))
        match queue with
        | [] => { t with current_task := none, future_task_queue := [] }
        | q :: rest =>
          if t.status = "idle" then
            { t with current_task := some q, future_task_queue := rest }
          else
            { t with current_task := none, future_task_queue := queue }) }

/-- `start_sim` (`POST /simulation/start`): freeze hubs, run the commit; on
failure roll every non-central hub back to `UNASSIGNED`/unowned/unfrozen,
clear the truck plans and queues, and restore phase `pre_start` (the source
then raises HTTP 400, modelled by the `false` flag); on success convert
route plans to task queues and enter the `executing` phase (the tick thread
the source spawns is outside the model). -/
def start_sim (geo : Geo) (w : WorldState) : Bool × WorldState :=
  let w1 := { w with hubs_frozen := true, simulation_phase := "committing" }
  let r := assign_hubs_to_trucks geo w1
  if ¬ r.1 then
    (false, { r.2 with
      hubs_frozen := false,
      simulation_phase := "pre_start",
      hubs := r.2.hubs.map rollbackHub,
      trucks := r.2.trucks.map (fun t =>
        { t with route_plan := [], future_task_queue := [], current_task := none }) })
  else
    let w3 := { r.2 with simulation_phase := "committed" }
    let w4 := task_queues_from_route_plans w3
    (true, { w4 with simulation_running := true, simulation_phase := "executing" })

/-- `point_to_line_distance`: shortest distance from a point to a segment,
with the closest point on the segment.  Returns
`(distance, closest_lat, closest_lon)`. -/
def point_to_line_distance (geo : Geo) (lat lon line_start_lat line_start_lon
    line_end_lat line_end_lon : ℚ) : ℚ × ℚ × ℚ :=
  let line_vec_x := line_end_lon - line_start_lon
  let line_vec_y := line_end_lat - line_start_lat
  let point_vec_x := lon - line_start_lon
  let point_vec_y := lat - line_start_lat
  let line_len_sq := line_vec_x * line_vec_x + line_vec_y * line_vec_y
  if line_len_sq = 0 then
    -- the segment is a point: no division happens
    (geo.haversine lat lon line_start_lat line_start_lon,
     line_start_lat, line_start_lon)
  else
    let t := max 0 (min 1
      ((point_vec_x * line_vec_x + point_vec_y * line_vec_y) / line_len_sq))
    let closest_lon := line_start_lon + t * line_vec_x
    let closest_lat := line_start_lat + t * line_vec_y
    (geo.haversine lat lon closest_lat closest_lon, closest_lat, closest_lon)

/-- The generated hub id `f"LIVE_{n}"`. -/
def liveId (n : Nat) : String :=
  "LIVE_" ++ Nat.repr n

/-- The id-search loop of `create_hub_manual`
(`while hub_id in existing_ids: live_counter += 1 ...`), with explicit fuel;
`create_hub_manual` supplies enough fuel for the loop to complete exactly as
in the source (which runs unboundedly but terminates after at most
`len(existing_ids) + 1` probes). -/
def searchFreshLive (ids : List String) : Nat → Nat → Nat
  | 0, n => n
  | fuel + 1, n => if liveId n ∈ ids then searchFreshLive ids fuel (n + 1) else n

/-- The `HubCreateRequest` payload model. -/
structure HubCreateRequest where
  name : String
  latitude : ℚ
  longitude : ℚ
  demand_quantity : Int
  demand_priority : String
  availability : Int
deriving DecidableEq, Repr

/-- `create_hub_manual` (`POST /hubs/manual`): generate a fresh `LIVE_n` id,
reject the request when hubs are frozen (`none`), otherwise insert the new
hub after the central hub when it heads the list, else append.  Returns the
new world state and the created hub. -/
def create_hub_manual (w : WorldState) (hub_data : HubCreateRequest) :
    Option (WorldState × Hub) :=
  let existing_ids := w.hubs.map Hub.id
  let hub_id := liveId (searchFreshLive existing_ids (existing_ids.length + 1) 1)
  if w.hubs_frozen then none
  else
    let new_hub : Hub :=
      { id := hub_id, name := hub_data.name, latitude := hub_data.latitude,
        longitude := hub_data.longitude,
        demand_quantity := hub_data.demand_quantity,
        demand_priority := hub_data.demand_priority,
        availability := hub_data.availability, priority_cost := 0,
        delivered := false, demand_intensity := "Medium",
        ownership_state := HubOwnershipState.UNASSIGNED,
        owner_truck_id := none, frozen_at_commit := false }
    let hubs' :=
      match w.hubs with
      | h0 :: _ =>
        if h0.id = centralHubId then w.hubs.insertIdx 1 new_hub
        else w.hubs ++ [new_hub]
      | [] => w.hubs ++ [new_hub]
    some ({ w with hubs := hubs' }, new_hub)

/-!
## Decimal-representation helpers

Used to show that `Nat.repr` is injective, hence that the generated
`LIVE_n` ids are pairwise distinct.
-/

/-- Decimal digit sequence of a natural number, most significant first
(the ideal value of `Nat.toDigits 10`). -/
def decChars (n : Nat) : List Char :=
  if n < 10 then [Nat.digitChar n]
  else decChars (n / 10) ++ [Nat.digitChar (n % 10)]
  termination_by n
  decreasing_by
    exact Nat.div_lt_self (by omega) (by omega)

/-- Numeric value of a decimal digit character. -/
def digitVal (c : Char) : Nat :=
  c.toNat - '0'.toNat

/-- Value of a most-significant-first decimal digit string. -/
def decVal (cs : List Char) : Nat :=
  cs.foldl (fun acc c => acc * 10 + digitVal c) 0

/-!
## Concrete sample data for scenario evaluations
-/

/-- A hub with the given identity, position, demand, priority and ownership
fields (availability 100, intensity `Medium`, not delivered — the pydantic
defaults). -/
def mkHub (id : String) (lat lon : ℚ) (dq : Int) (prio : String)
    (state : String) (owner : Option String) (frozen : Bool) : Hub :=
  { id := id, name := id, latitude := lat, longitude := lon,
    demand_quantity := dq, demand_priority := prio, availability := 100,
    priority_cost := 0, delivered := false, demand_intensity := "Medium",
    ownership_state := state, owner_truck_id := owner,
    frozen_at_commit := frozen }

/-- An active truck parked at the depot with a full tank and the pydantic
default capacity. -/
def mkTruck (id : String) (fuel : ℚ) (status : String) : Truck :=
  { id := id, fuel_capacity := fuel,
    current_latitude := centralHubLatitude,
    current_longitude := centralHubLongitude,
    fuel_remaining := fuel, active := true, assigned_hubs := [],
    route_plan := [], completed_deliveries := [], current_task := none,
    future_task_queue := [], status := status, max_capacity := 100 }

/-- Concrete geometry oracle for scenarios: any two distinct points are
2000 km apart. -/
def geoC : Geo :=
  { haversine := fun a b c d => if a = c ∧ b = d then 0 else 2000,
    atan2 := fun _ _ => 0,
    angleThreshold := 1 }

/-- The seeded central depot hub. -/
def centralHub : Hub :=
  { id := centralHubId, name := "Trichy Central Depot",
    latitude := centralHubLatitude, longitude := centralHubLongitude,
    demand_quantity := 0, demand_priority := "High", availability := 10000,
    priority_cost := 0, delivered := false, demand_intensity := "Medium",
    ownership_state := HubOwnershipState.UNASSIGNED, owner_truck_id := none,
    frozen_at_commit := false }

/-- A hub 2000 km from the depot (under `geoC`) with one unit of demand. -/
def farHub : Hub :=
  mkHub "H_FAR" 28 85 1 "High" HubOwnershipState.UNASSIGNED none false

/-- A truck with `fuel_capacity = 50`, idle at the depot. -/
def truckC1 : Truck := mkTruck "T1" 50 "idle"

/-- The scenario world of the fuel claim: a single active truck of fuel
capacity 50 at the depot, and one hub 2000 km away with demand 1. -/
def worldC1 : WorldState :=
  { hubs := [centralHub, farHub], trucks := [truckC1],
    ai_decisions := [], simulation_running := false, simulation_time := 0,
    initial_hubs_with_demand := [], simulation_phase := "pre_start",
    hubs_frozen := false }

/-!
## Helper lemmas
-/

theorem lookup_cons (s a : String) (q : ℚ) (rest : List (String × ℚ)) :
    List.lookup s ((a, q) :: rest) = if s = a then some q else List.lookup s rest := by
  by_cases h : s = a
  · simp [List.lookup, h]
  · simp [List.lookup, h, beq_eq_false_iff_ne.mpr h]

/-!
## Claim theorems
-/

/-- **C9.** `get_urgency_weight` is total: it maps the four intensity values
to their weights and every other string to the `Medium` weight 2.0, so an
invalid `demand_intensity` never causes an error in scoring, reordering or
escalation. -/
theorem get_urgency_weight_total (s : String) :
    get_urgency_weight s =
      if s = "Low" then 1
      else if s = "Medium" then 2
      else if s = "High" then 4
      else if s = "Emergency" then 10
      else 2 := by
  unfold get_urgency_weight urgencyWeights
  simp only [lookup_cons, List.lookup_nil]
  by_cases h1 : s = "Low" <;> by_cases h2 : s = "Medium" <;>
    by_cases h3 : s = "High" <;> by_cases h4 : s = "Emergency" <;>
    simp_all

/-- **C5.** `is_at_safe_decision_point` holds exactly when the truck is
`idle`, or is not `moving` and sits within 0.01 degrees of the depot on both
coordinates; in particular it never holds while `moving`. -/
theorem safe_decision_point_iff (t : Truck) :
    is_at_safe_decision_point t = true ↔
      (t.status = "idle" ∨
        (t.status ≠ "moving" ∧
          |t.current_latitude - centralHubLatitude| < 1 / 100 ∧
          |t.current_longitude - centralHubLongitude| < 1 / 100)) := by
  unfold is_at_safe_decision_point
  by_cases hm : t.status = "moving"
  · simp [hm]
  · by_cases hi : t.status = "idle" <;> simp [hm, hi, and_assoc]

/-- Witness for C5: an idle truck is at a safe decision point. -/
theorem safe_decision_point_iff_witness :
    is_at_safe_decision_point (mkTruck "T1" 100 "idle") = true :=
  (safe_decision_point_iff (mkTruck "T1" 100 "idle")).mpr (Or.inl rfl)

/-- Position-wise description of `updateHub`: every position is unchanged,
except possibly the first position whose hub id matches, which receives `f`
applied to its hub (and is then also the hub `findHub` returns). -/
theorem updateHub_getElem? (hubs : List Hub) (hid : String) (f : Hub → Hub)
    (i : Nat) :
    (updateHub hubs hid f)[i]? = hubs[i]? ∨
    ∃ h, hubs[i]? = some h ∧ h.id = hid ∧ findHub hubs hid = some h ∧
      (updateHub hubs hid f)[i]? = some (f h) := by
  induction hubs generalizing i with
  | nil => left; rfl
  | cons h rest ih =>
    by_cases hh : h.id = hid
    · cases i with
      | zero =>
        right
        exact ⟨h, by simp, hh, by simp [findHub, List.find?_cons_of_pos, hh],
          by simp [updateHub, hh]⟩
      | succ j => left; simp [updateHub, hh]
    · cases i with
      | zero => left; simp [updateHub, hh]
      | succ j =>
        rcases ih j with hc | ⟨g, hg, hgid, hgfind, hgu⟩
        · left; simp [updateHub, hh, hc]
        · right
          refine ⟨g, by simpa using hg, hgid, ?_, by simp [updateHub, hh, hgu]⟩
          simpa [findHub, List.find?_cons_of_neg, hh] using hgfind

/-- **C4.** `assign_hub_to_truck` returns `false` and mutates nothing when
the hub is missing, assigned to a different truck, or completed; succeeds
idempotently without mutation when already assigned to the same truck; and
on an `UNASSIGNED` hub sets only `ownership_state`/`owner_truck_id` of the
(first) matching hub and returns `true`. -/
theorem assign_spec (w : WorldState) (hub_id truck_id : String) :
    (findHub w.hubs hub_id = none →
      assign_hub_to_truck w hub_id truck_id = (false, w)) ∧
    (∀ h, findHub w.hubs hub_id = some h →
      ((h.ownership_state = HubOwnershipState.ASSIGNED ∧
          h.owner_truck_id ≠ some truck_id) →
        assign_hub_to_truck w hub_id truck_id = (false, w)) ∧
      ((h.ownership_state = HubOwnershipState.ASSIGNED ∧
          h.owner_truck_id = some truck_id) →
        assign_hub_to_truck w hub_id truck_id = (true, w)) ∧
      (h.ownership_state = HubOwnershipState.COMPLETED →
        assign_hub_to_truck w hub_id truck_id = (false, w)) ∧
      (h.ownership_state = HubOwnershipState.UNASSIGNED →
        assign_hub_to_truck w hub_id truck_id =
          (true, { w with hubs := updateHub w.hubs hub_id (fun g =>
            { g with ownership_state := HubOwnershipState.ASSIGNED,
                     owner_truck_id := some truck_id }) })) ∧
      (∀ (i : Nat) (g : Hub), w.hubs[i]? = some g → g.id ≠ hub_id →
        (assign_hub_to_truck w hub_id truck_id).2.hubs[i]? = some g)) := by
  have hframe : ∀ (i : Nat) (g : Hub), w.hubs[i]? = some g → g.id ≠ hub_id →
      (assign_hub_to_truck w hub_id truck_id).2.hubs[i]? = some g := by
    intro i g hg hne
    unfold assign_hub_to_truck
    cases hf : findHub w.hubs hub_id with
    | none => simpa using hg
    | some hb =>
      by_cases ha : hb.ownership_state = HubOwnershipState.ASSIGNED
      · by_cases ho : hb.owner_truck_id = some truck_id <;> simp [ha, ho, hg]
      · by_cases hcc : hb.ownership_state = HubOwnershipState.COMPLETED
        · simp [ha, hcc, hg, HubOwnershipState.COMPLETED, HubOwnershipState.ASSIGNED]
        · simp only [ha, hcc, if_false]
          rcases updateHub_getElem? w.hubs hub_id (fun g =>
            { g with ownership_state := HubOwnershipState.ASSIGNED,
                     owner_truck_id := some truck_id }) i with hu | ⟨h', hh', hid', _, _⟩
          · simpa [hu] using hg
          · rw [hg] at hh'
            cases hh'
            exact absurd hid' hne
  constructor
  · intro hn
    unfold assign_hub_to_truck
    rw [hn]
  · intro h hf
    refine ⟨?_, ?_, ?_, ?_⟩
    · rintro ⟨ha, hne⟩
      unfold assign_hub_to_truck
      rw [hf]
      simp [ha, hne]
    · rintro ⟨ha, hown⟩
      unfold assign_hub_to_truck
      rw [hf]
      simp [ha, hown]
    · intro hc
      unfold assign_hub_to_truck
      rw [hf]
      simp [hc, HubOwnershipState.COMPLETED, HubOwnershipState.ASSIGNED]
    · constructor
      · intro hu
        unfold assign_hub_to_truck
        rw [hf]
        simp [hu, HubOwnershipState.UNASSIGNED, HubOwnershipState.ASSIGNED,
          HubOwnershipState.COMPLETED]
      · exact hframe

/-- An unassigned hub used by the C4 witness. -/
def hubU : Hub :=
  mkHub "H1" 11 79 1 "High" HubOwnershipState.UNASSIGNED none false

/-- The world of the C4 witness. -/
def worldU : WorldState :=
  { hubs := [hubU], trucks := [mkTruck "T1" 100 "idle"],
    ai_decisions := [], simulation_running := false, simulation_time := 0,
    initial_hubs_with_demand := [], simulation_phase := "pre_start",
    hubs_frozen := false }

/-- Witness for C4: assigning the unassigned hub `H1` to `T1` succeeds and
performs exactly the ownership update. -/
theorem assign_spec_witness :
    assign_hub_to_truck worldU "H1" "T1" =
      (true, { worldU with hubs := updateHub worldU.hubs "H1" (fun g =>
        { g with ownership_state := HubOwnershipState.ASSIGNED,
                 owner_truck_id := some "T1" }) }) :=
  ((assign_spec worldU "H1" "T1").2 hubU (by rfl)).2.2.2.1 (by rfl)

/-- **C1** (code bug).  The commit planner `assign_hubs_to_trucks` never
consults the round-trip fuel check: on the claimed scenario — a single
active truck with `fuel_capacity = 50` at the depot and one hub 2000 km
from the depot with demand 1 — the commit *succeeds* and assigns the hub to
the truck even though `is_fuel_feasible_with_return` rejects the pair, where
the claim (and the spec scenario) require the commit to fail. -/
theorem commit_assigns_fuel_infeasible_hub :
    (assign_hubs_to_trucks geoC worldC1).1 = true ∧
    findHub (assign_hubs_to_trucks geoC worldC1).2.hubs "H_FAR" =
      some { farHub with ownership_state := HubOwnershipState.ASSIGNED,
                         owner_truck_id := some "T1",
                         frozen_at_commit := true } ∧
    is_fuel_feasible_with_return geoC truckC1 farHub = false := by
  refine ⟨?_, ?_, ?_⟩
  · simp [assign_hubs_to_trucks, commitPhases, buildHubInfo, worldC1,
      centralHub, farHub,
      truckC1, mkHub, mkTruck, geoC, centralHubId, centralHubLatitude,
      centralHubLongitude, firstOccurrences, firstOccurrencesAux, angleBin,
      pyRound, corridorSort, corridorStep, corridorHubStep, selectCorridorTruck,
      fallbackStep, fallbackBest, assign_hub_to_truck, findHub, updateHub,
      updateTruckAt,
      updateHubAt, hasCapacity, appendCapped, priorityAt, priorityRank,
      priority_order, List.enum, List.lookup, HubOwnershipState.UNASSIGNED,
      HubOwnershipState.ASSIGNED, HubOwnershipState.COMPLETED]
  · simp [assign_hubs_to_trucks, commitPhases, buildHubInfo, worldC1,
      centralHub, farHub,
      truckC1, mkHub, mkTruck, geoC, centralHubId, centralHubLatitude,
      centralHubLongitude, firstOccurrences, firstOccurrencesAux, angleBin,
      pyRound, corridorSort, corridorStep, corridorHubStep, selectCorridorTruck,
      fallbackStep, fallbackBest, assign_hub_to_truck, findHub, updateHub,
      updateTruckAt,
      updateHubAt, hasCapacity, appendCapped, priorityAt, priorityRank,
      priority_order, List.enum, List.lookup, HubOwnershipState.UNASSIGNED,
      HubOwnershipState.ASSIGNED, HubOwnershipState.COMPLETED]
  · simp only [is_fuel_feasible_with_return, geoC, truckC1, farHub, mkTruck,
      mkHub, FUEL_CONSUMPTION_RATE, centralHubLatitude, centralHubLongitude]
    norm_num

/-- **C8.** `point_to_line_distance` is total: when the two endpoints
coincide (equivalently `line_len_sq = 0` over the exact rationals) it
returns the haversine distance to that endpoint together with the endpoint,
never dividing; otherwise the projection parameter is clamped to `[0, 1]`,
so the closest point returned is a convex combination of the endpoints,
i.e. lies on the segment. -/
theorem point_to_line_distance_total (geo : Geo)
    (lat lon line_start_lat line_start_lon line_end_lat line_end_lon : ℚ) :
    ((line_start_lat = line_end_lat ∧ line_start_lon = line_end_lon) →
      point_to_line_distance geo lat lon line_start_lat line_start_lon
          line_end_lat line_end_lon =
        (geo.haversine lat lon line_start_lat line_start_lon,
         line_start_lat, line_start_lon)) ∧
    (¬ (line_start_lat = line_end_lat ∧ line_start_lon = line_end_lon) →
      ∃ t : ℚ, 0 ≤ t ∧ t ≤ 1 ∧
        point_to_line_distance geo lat lon line_start_lat line_start_lon
            line_end_lat line_end_lon =
          (geo.haversine lat lon
            (line_start_lat + t * (line_end_lat - line_start_lat))
            (line_start_lon + t * (line_end_lon - line_start_lon)),
           line_start_lat + t * (line_end_lat - line_start_lat),
           line_start_lon + t * (line_end_lon - line_start_lon))) := by
  constructor
  · rintro ⟨h1, h2⟩
    unfold point_to_line_distance
    simp [← h1, ← h2]
  · intro hne
    have hsq : (line_end_lon - line_start_lon) * (line_end_lon - line_start_lon) +
        (line_end_lat - line_start_lat) * (line_end_lat - line_start_lat) ≠ 0 := by
      intro h0
      apply hne
      constructor
      · have hx := mul_self_nonneg (line_end_lon - line_start_lon)
        have hy := mul_self_nonneg (line_end_lat - line_start_lat)
        have : (line_end_lat - line_start_lat) * (line_end_lat - line_start_lat) = 0 := by
          nlinarith
        have := mul_self_eq_zero.mp this
        linarith
      · have hx := mul_self_nonneg (line_end_lon - line_start_lon)
        have hy := mul_self_nonneg (line_end_lat - line_start_lat)
        have : (line_end_lon - line_start_lon) * (line_end_lon - line_start_lon) = 0 := by
          nlinarith
        have := mul_self_eq_zero.mp this
        linarith
    refine ⟨max 0 (min 1 (((lon - line_start_lon) * (line_end_lon - line_start_lon) +
      (lat - line_start_lat) * (line_end_lat - line_start_lat)) /
      ((line_end_lon - line_start_lon) * (line_end_lon - line_start_lon) +
       (line_end_lat - line_start_lat) * (line_end_lat - line_start_lat)))),
      le_max_left 0 _, ?_, ?_⟩
    · exact max_le (by norm_num) (min_le_left 1 _)
    · unfold point_to_line_distance
      rw [if_neg hsq]

/-- Witness for C8: the degenerate-segment case at a concrete input. -/
theorem point_to_line_distance_total_witness :
    point_to_line_distance geoC 1 1 2 3 2 3 =
      (geoC.haversine 1 1 2 3, 2, 3) :=
  (point_to_line_distance_total geoC 1 1 2 3 2 3).1 ⟨rfl, rfl⟩

/-- **C3** (corrected).  A `COMPLETED` hub survives `assign_hub_to_truck`
unchanged and stays `COMPLETED` under `release_hub_ownership` with
`mark_completed = true`; but `release_hub_ownership` with
`mark_completed = false` sets the first hub matching the id — `COMPLETED`
included — to `UNASSIGNED` with no owner, and the `start_sim` rollback after
a failed commit resets every non-central hub — `COMPLETED` included — to
`UNASSIGNED` with no owner. -/
theorem completed_hub_transitions (w : WorldState) (hub_id truck_id : String) :
    (∀ (i : Nat) (g : Hub), w.hubs[i]? = some g →
      g.ownership_state = HubOwnershipState.COMPLETED →
      (assign_hub_to_truck w hub_id truck_id).2.hubs[i]? = some g) ∧
    (∀ (i : Nat) (g : Hub), w.hubs[i]? = some g →
      g.ownership_state = HubOwnershipState.COMPLETED →
      ∃ g', (release_hub_ownership w hub_id true).2.hubs[i]? = some g' ∧
        g'.ownership_state = HubOwnershipState.COMPLETED) ∧
    (∀ h, findHub w.hubs hub_id = some h →
      release_hub_ownership w hub_id false =
        (true, { w with hubs := updateHub w.hubs hub_id (fun g =>
          { g with ownership_state := HubOwnershipState.UNASSIGNED,
                   owner_truck_id := none }) })) ∧
    (∀ (geo : Geo), (start_sim geo w).1 = false →
      ∀ (i : Nat) (g' : Hub), (start_sim geo w).2.hubs[i]? = some g' →
        g'.id ≠ centralHubId →
        g'.ownership_state = HubOwnershipState.UNASSIGNED ∧
        g'.owner_truck_id = none) := by
  refine ⟨?_, ?_, ?_, ?_⟩
  · intro i g hg hc
    unfold assign_hub_to_truck
    cases hf : findHub w.hubs hub_id with
    | none => simpa using hg
    | some h =>
      by_cases ha : h.ownership_state = HubOwnershipState.ASSIGNED
      · by_cases ho : h.owner_truck_id = some truck_id <;> simp [ha, ho, hg]
      · by_cases hcc : h.ownership_state = HubOwnershipState.COMPLETED
        · simp [ha, hcc, hg, HubOwnershipState.COMPLETED, HubOwnershipState.ASSIGNED]
        · simp only [ha, hcc, if_false]
          rcases updateHub_getElem? w.hubs hub_id (fun g =>
            { g with ownership_state := HubOwnershipState.ASSIGNED,
                     owner_truck_id := some truck_id }) i with hu | ⟨h', hh', _, hfind', _⟩
          · simpa [hu] using hg
          · rw [hf] at hfind'
            cases hfind'
            rw [hh'] at hg
            cases hg
            exact absurd hc hcc
  · intro i g hg hc
    unfold release_hub_ownership
    cases hf : findHub w.hubs hub_id with
    | none => exact ⟨g, by simpa using hg, hc⟩
    | some h =>
      simp only
      rcases updateHub_getElem? w.hubs hub_id (fun g =>
        { g with ownership_state := HubOwnershipState.COMPLETED,
                 delivered := true, owner_truck_id := none }) i with hu | ⟨h', hh', _, _, hu⟩
      · exact ⟨g, by simpa [hu] using hg, hc⟩
      · exact ⟨_, hu, rfl⟩
  · intro h hf
    unfold release_hub_ownership
    rw [hf]
    simp
  · intro geo hfail i g' hg' hne
    simp only [start_sim] at hfail hg'
    cases hb : (assign_hubs_to_trucks geo
        { w with hubs_frozen := true, simulation_phase := "committing" }).1 with
    | true => simp [hb] at hfail
    | false =>
      rw [hb] at hg'
      rw [if_pos (by decide : ¬ false = true)] at hg'
      simp only [List.getElem?_map] at hg'
      cases hgm : (assign_hubs_to_trucks geo
          { w with hubs_frozen := true, simulation_phase := "committing" }).2.hubs[i]? with
      | none => rw [hgm] at hg'; cases hg'
      | some g0 =>
        rw [hgm] at hg'
        have hg'' : rollbackHub g0 = g' := by simpa using hg'
        unfold rollbackHub at hg''
        by_cases hcent : g0.id = centralHubId
        · rw [if_pos hcent] at hg''
          subst hg''
          exact absurd hcent hne
        · rw [if_neg hcent] at hg''
          subst hg''
          exact ⟨rfl, rfl⟩

/-- A completed hub for the C3 scenario. -/
def hubDone : Hub :=
  mkHub "H_DONE" 12 80 0 "High" HubOwnershipState.COMPLETED none true

/-- The C3 scenario world: a single `COMPLETED` hub. -/
def worldC3 : WorldState :=
  { hubs := [hubDone], trucks := [], ai_decisions := [],
    simulation_running := false, simulation_time := 0,
    initial_hubs_with_demand := [], simulation_phase := "executing",
    hubs_frozen := true }

/-- Counterexample for C3: releasing the `COMPLETED` hub `H_DONE` with
`mark_completed = false` moves it back to `UNASSIGNED`, where the claim says
it must stay `COMPLETED`. -/
theorem release_demotes_completed_hub :
    worldC3.hubs.map Hub.ownership_state = [HubOwnershipState.COMPLETED] ∧
    (release_hub_ownership worldC3 "H_DONE" false).2.hubs.map Hub.ownership_state =
      [HubOwnershipState.UNASSIGNED] ∧
    HubOwnershipState.UNASSIGNED ≠ HubOwnershipState.COMPLETED := by
  refine ⟨rfl, rfl, by decide⟩

/-- Witness for C3: on the concrete `COMPLETED` hub, release with
`mark_completed = false` performs exactly the `UNASSIGNED` reset (the
behaviour of the amended claim). -/
theorem completed_hub_transitions_witness :
    release_hub_ownership worldC3 "H_DONE" false =
      (true, { worldC3 with hubs := updateHub worldC3.hubs "H_DONE" (fun g =>
        { g with ownership_state := HubOwnershipState.UNASSIGNED,
                 owner_truck_id := none }) }) :=
  (completed_hub_transitions worldC3 "H_DONE" "T1").2.2.1 hubDone (by rfl)

theorem digitVal_digitChar : ∀ d : Nat, d < 10 → digitVal (Nat.digitChar d) = d := by
  decide

theorem decVal_aux (cs : List Char) : ∀ acc : Nat,
    cs.foldl (fun acc c => acc * 10 + digitVal c) acc =
      acc * 10 ^ cs.length + decVal cs := by
  induction cs with
  | nil => intro acc; simp [decVal]
  | cons c cs ih =>
    intro acc
    simp only [List.foldl_cons, decVal, List.length_cons]
    rw [ih, ih (0 * 10 + digitVal c)]
    ring

theorem decVal_append_digit (cs : List Char) (c : Char) :
    decVal (cs ++ [c]) = decVal cs * 10 + digitVal c := by
  simp only [decVal, List.foldl_append, List.foldl_cons, List.foldl_nil]

theorem decVal_decChars (n : Nat) : decVal (decChars n) = n := by
  induction n using Nat.strong_induction_on with
  | _ n ih =>
    rw [decChars]
    by_cases h : n < 10
    · simp only [if_pos h, decVal, List.foldl_cons, List.foldl_nil]
      rw [Nat.zero_mul, Nat.zero_add, digitVal_digitChar n h]
    · simp only [if_neg h]
      rw [decVal_append_digit, ih (n / 10) (Nat.div_lt_self (by omega) (by omega)),
        digitVal_digitChar (n % 10) (Nat.mod_lt _ (by omega))]
      omega

theorem toDigitsCore_append (fuel : Nat) : ∀ (n : Nat) (ds : List Char),
    Nat.toDigitsCore 10 fuel n ds = Nat.toDigitsCore 10 fuel n [] ++ ds := by
  induction fuel with
  | zero => intro n ds; simp [Nat.toDigitsCore]
  | succ fuel ih =>
    intro n ds
    simp only [Nat.toDigitsCore]
    by_cases h : n / 10 = 0
    · simp [h]
    · simp only [if_neg h]
      rw [ih (n / 10) [Nat.digitChar (n % 10)], ih (n / 10) (Nat.digitChar (n % 10) :: ds)]
      simp

theorem toDigitsCore_eq_decChars (fuel : Nat) : ∀ n : Nat, n < fuel →
    Nat.toDigitsCore 10 fuel n [] = decChars n := by
  induction fuel with
  | zero => intro n h; omega
  | succ fuel ih =>
    intro n h
    simp only [Nat.toDigitsCore]
    by_cases h10 : n / 10 = 0
    · have hn : n < 10 := by
        by_contra hge
        rw [Nat.div_eq_zero_iff (by omega)] at h10
        omega
      rw [if_pos h10, decChars, if_pos hn, Nat.mod_eq_of_lt hn]
    · have hge : 10 ≤ n := by
        by_contra hlt
        exact h10 (Nat.div_eq_of_lt (by omega))
      have hdiv : n / 10 < n := Nat.div_lt_self (by omega) (by omega)
      rw [if_neg h10, toDigitsCore_append, ih (n / 10) (by omega)]
      conv_rhs => rw [decChars]
      rw [if_neg (by omega)]

/-- `Nat.repr` is injective (decimal representations determine the number). -/
theorem repr_injective : Function.Injective Nat.repr := by
  intro m n h
  have hm : Nat.toDigits 10 m = decChars m := toDigitsCore_eq_decChars (m + 1) m (by omega)
  have hn : Nat.toDigits 10 n = decChars n := toDigitsCore_eq_decChars (n + 1) n (by omega)
  have hd : decChars m = decChars n := by
    have := congrArg String.data h
    simpa [Nat.repr, List.asString, hm, hn] using this
  calc m = decVal (decChars m) := (decVal_decChars m).symm
    _ = decVal (decChars n) := by rw [hd]
    _ = n := decVal_decChars n

/-- The generated ids `LIVE_n` are pairwise distinct. -/
theorem liveId_injective : Function.Injective liveId := by
  intro m n h
  apply repr_injective
  apply String.ext
  have := congrArg String.data h
  simpa [liveId, String.data_append] using this

/-- Pigeonhole: among the candidates `LIVE_1 .. LIVE_(len+1)` at least one is
not an existing id. -/
theorem exists_fresh_liveId (ids : List String) :
    ∃ k, 1 ≤ k ∧ k < ids.length + 2 ∧ liveId k ∉ ids := by
  by_contra hcon
  push_neg at hcon
  have hsub : (Finset.Icc 1 (ids.length + 1)).image liveId ⊆ ids.toFinset := by
    intro s hs
    rcases Finset.mem_image.mp hs with ⟨k, hk, rfl⟩
    rcases Finset.mem_Icc.mp hk with ⟨h1, h2⟩
    exact List.mem_toFinset.mpr (hcon k h1 (by omega))
  have hcard : ((Finset.Icc 1 (ids.length + 1)).image liveId).card = ids.length + 1 := by
    rw [Finset.card_image_of_injective _ liveId_injective, Nat.card_Icc]
    omega
  have hle := Finset.card_le_card hsub
  rw [hcard] at hle
  have := List.toFinset_card_le ids
  omega

/-- The id-search loop returns a fresh id whenever one exists within the
fuel range. -/
theorem searchFreshLive_spec (ids : List String) :
    ∀ (fuel n : Nat), (∃ k, n ≤ k ∧ k < n + fuel ∧ liveId k ∉ ids) →
      liveId (searchFreshLive ids fuel n) ∉ ids := by
  intro fuel
  induction fuel with
  | zero =>
    rintro n ⟨k, h1, h2, _⟩
    omega
  | succ fuel ih =>
    rintro n ⟨k, h1, h2, h3⟩
    unfold searchFreshLive
    by_cases hm : liveId n ∈ ids
    · rw [if_pos hm]
      refine ih (n + 1) ⟨k, ?_, by omega, h3⟩
      rcases Nat.eq_or_lt_of_le h1 with he | hlt
      · exact absurd (he ▸ hm) h3
      · omega
    · rw [if_neg hm]
      exact hm

/-- **C10.** A successful `create_hub_manual` always creates a hub whose id
has the form `LIVE_n` and differs from every existing hub id; consequently
pairwise-distinct hub ids stay pairwise distinct. -/
theorem create_hub_manual_fresh (w : WorldState) (hub_data : HubCreateRequest)
    (w' : WorldState) (new_hub : Hub)
    (hc : create_hub_manual w hub_data = some (w', new_hub)) :
    (∃ n, new_hub.id = liveId n) ∧
    new_hub.id ∉ w.hubs.map Hub.id ∧
    ((w.hubs.map Hub.id).Nodup → (w'.hubs.map Hub.id).Nodup) := by
  unfold create_hub_manual at hc
  by_cases hf : w.hubs_frozen
  · rw [if_pos hf] at hc
    cases hc
  · rw [if_neg hf] at hc
    have hfree : liveId (searchFreshLive (w.hubs.map Hub.id)
        ((w.hubs.map Hub.id).length + 1) 1) ∉ w.hubs.map Hub.id := by
      apply searchFreshLive_spec
      rcases exists_fresh_liveId (w.hubs.map Hub.id) with ⟨k, h1, h2, h3⟩
      exact ⟨k, h1, by omega, h3⟩
    obtain ⟨h1, h2⟩ := (Prod.mk.injEq _ _ _ _).mp (Option.some.inj hc)
    subst h1
    subst h2
    refine ⟨⟨_, rfl⟩, hfree, ?_⟩
    intro hnd
    cases hhubs : w.hubs with
    | nil => simp [hhubs]
    | cons h0 rest =>
      simp only [hhubs] at hfree hnd ⊢
      by_cases hcent : h0.id = centralHubId
      · rw [if_pos hcent, List.insertIdx_succ_cons, List.insertIdx_zero]
        simp only [List.map_cons, List.nodup_cons, List.mem_cons,
          List.mem_map] at hnd hfree ⊢
        push_neg at hfree
        refine ⟨?_, ?_, hnd.2⟩
        · rintro (he | hex)
          · exact hfree.1 he.symm
          · exact hnd.1 hex
        · rintro ⟨a, ha, hae⟩
          exact hfree.2 a ha hae
      · rw [if_neg hcent]
        simp only [List.map_append, List.map_cons, List.map_nil]
        rw [List.nodup_append]
        refine ⟨hnd, List.nodup_singleton _, ?_⟩
        intro a ha hb
        simp only [List.mem_singleton] at hb
        subst hb
        exact hfree (by simpa using ha)

/-- The creation payload of the C10 witness. -/
def reqW : HubCreateRequest :=
  { name := "NewHub", latitude := 12, longitude := 79, demand_quantity := 1,
    demand_priority := "Low", availability := 20 }

/-- The hub the C10 witness creates. -/
def hubUc : Hub :=
  { id := liveId 1, name := "NewHub", latitude := 12, longitude := 79,
    demand_quantity := 1, demand_priority := "Low", availability := 20,
    priority_cost := 0, delivered := false, demand_intensity := "Medium",
    ownership_state := HubOwnershipState.UNASSIGNED, owner_truck_id := none,
    frozen_at_commit := false }

/-- The world after the C10 witness creation. -/
def worldUc : WorldState :=
  { worldU with hubs := worldU.hubs ++ [hubUc] }

/-- Witness for C10 at a concrete world: the created id is `LIVE_1`, fresh,
and distinctness of ids is preserved. -/
theorem create_hub_manual_fresh_witness :
    (∃ n, hubUc.id = liveId n) ∧
    hubUc.id ∉ worldU.hubs.map Hub.id ∧
    ((worldU.hubs.map Hub.id).Nodup → (worldUc.hubs.map Hub.id).Nodup) :=
  create_hub_manual_fresh worldU reqW worldUc hubUc (by rfl)

/-- **C7.** Escalating an `ASSIGNED` hub never changes any hub; when the
owner truck is missing nothing changes at all; when it is found, the only
truck that changes is the owner: its queue entries matching the hub get the
fresh urgency weight and, at a safe decision point, its queue is reordered;
every other truck is untouched. -/
theorem escalation_assigned_spec (geo : Geo) (w : WorldState) (hid : String)
    (h : Hub) (hf : findHub w.hubs hid = some h)
    (ha : h.ownership_state = HubOwnershipState.ASSIGNED) :
    (handle_demand_escalation geo w hid).hubs = w.hubs ∧
    (h.owner_truck_id = none → handle_demand_escalation geo w hid = w) ∧
    (∀ oid : String, h.owner_truck_id = some oid →
      w.trucks.findIdx? (fun t => t.id = oid) = none →
      handle_demand_escalation geo w hid = w) ∧
    (∀ (oid : String) (i : Nat) (t : Truck), h.owner_truck_id = some oid →
      w.trucks.findIdx? (fun t => t.id = oid) = some i →
      w.trucks[i]? = some t →
      (handle_demand_escalation geo w hid).trucks = w.trucks.set i
        (if is_at_safe_decision_point
            { t with future_task_queue := t.future_task_queue.map (fun task =>
                if task.hub_id = hid then
                  { task with urgency_weight := get_urgency_weight h.demand_intensity }
                else task) } then
          reorder_task_queue_at_decision_point w.hubs
            { t with future_task_queue := t.future_task_queue.map (fun task =>
                if task.hub_id = hid then
                  { task with urgency_weight := get_urgency_weight h.demand_intensity }
                else task) }
        else
          { t with future_task_queue := t.future_task_queue.map (fun task =>
              if task.hub_id = hid then
                { task with urgency_weight := get_urgency_weight h.demand_intensity }
              else task) }) ∧
      (∀ j : Nat, j ≠ i →
        (handle_demand_escalation geo w hid).trucks[j]? = w.trucks[j]?)) := by
  refine ⟨?_, ?_, ?_, ?_⟩
  · cases ho : h.owner_truck_id with
    | none => simp [handle_demand_escalation, hf, ha, ho]
    | some oid =>
      cases hidx : w.trucks.findIdx? (fun t => t.id = oid) with
      | none => simp [handle_demand_escalation, hf, ha, ho, hidx]
      | some i =>
        cases hg : w.trucks[i]? with
        | none => simp [handle_demand_escalation, hf, ha, ho, hidx, hg]
        | some t => simp [handle_demand_escalation, hf, ha, ho, hidx, hg]
  · intro ho
    simp [handle_demand_escalation, hf, ha, ho]
  · intro oid ho hidx
    simp [handle_demand_escalation, hf, ha, ho, hidx]
  · intro oid i t ho hidx hg
    constructor
    · simp [handle_demand_escalation, hf, ha, ho, hidx, hg]
    · intro j hj
      simp [handle_demand_escalation, hf, ha, ho, hidx, hg,
        List.getElem?_set, Ne.symm hj]

/-- The assigned hub of the C7 witness, owned by `T1`. -/
def hubA : Hub :=
  mkHub "H_A" 11 79 3 "High" HubOwnershipState.ASSIGNED (some "T1") true

/-- The owner truck of the C7 witness, mid-leg with one queued task for the
escalated hub. -/
def truckA : Truck :=
  { mkTruck "T1" 100 "moving" with
      future_task_queue := [{ hub_id := "H_A", urgency_weight := 2, assigned_at := 0 }] }

/-- The world of the C7 witness. -/
def worldA : WorldState :=
  { hubs := [hubA], trucks := [truckA], ai_decisions := [],
    simulation_running := true, simulation_time := 5,
    initial_hubs_with_demand := ["H_A"], simulation_phase := "executing",
    hubs_frozen := true }

/-- Witness for C7: on the concrete owner truck (position 0) the escalation
performs exactly the described queue update. -/
theorem escalation_assigned_spec_witness :
    (handle_demand_escalation geoC worldA "H_A").trucks = worldA.trucks.set 0
      (if is_at_safe_decision_point
          { truckA with future_task_queue := truckA.future_task_queue.map (fun task =>
              if task.hub_id = "H_A" then
                { task with urgency_weight := get_urgency_weight hubA.demand_intensity }
              else task) } then
        reorder_task_queue_at_decision_point worldA.hubs
          { truckA with future_task_queue := truckA.future_task_queue.map (fun task =>
              if task.hub_id = "H_A" then
                { task with urgency_weight := get_urgency_weight hubA.demand_intensity }
              else task) }
      else
        { truckA with future_task_queue := truckA.future_task_queue.map (fun task =>
            if task.hub_id = "H_A" then
              { task with urgency_weight := get_urgency_weight hubA.demand_intensity }
            else task) }) :=
  ((escalation_assigned_spec geoC worldA "H_A" hubA (by rfl) (by rfl)).2.2.2
    "T1" 0 truckA (by rfl) (by rfl) (by rfl)).1

end RouteOpt

namespace RouteOpt

section EscalationFold

variable (geo : Geo) (hub : Hub)

theorem escalationStep_skip (best : Option (Nat × ℚ)) (p : Nat × Truck)
    (h : ¬ (p.2.active = true ∧ is_fuel_feasible_with_return geo p.2 hub = true)) :
    escalationStep geo hub best p = best := by
  unfold escalationStep
  by_cases h1 : p.2.active = true
  · by_cases h2 : is_fuel_feasible_with_return geo p.2 hub = true
    · exact absurd ⟨h1, h2⟩ h
    · simp [h1, h2]
  · simp [h1]

theorem escalationStep_elig (best : Option (Nat × ℚ)) (p : Nat × Truck)
    (h1 : p.2.active = true) (h2 : is_fuel_feasible_with_return geo p.2 hub = true) :
    escalationStep geo hub best p =
      (match best with
       | none => some (p.1, escalationCost geo hub p.2)
       | some (bi, bc) =>
         if escalationCost geo hub p.2 < bc then some (p.1, escalationCost geo hub p.2)
         else some (bi, bc)) := by
  unfold escalationStep
  simp [h1, h2]

theorem escalationFold_none (l : List (Nat × Truck)) :
    ∀ acc : Option (Nat × ℚ),
      l.foldl (escalationStep geo hub) acc = none ↔
        (acc = none ∧ ∀ p ∈ l, ¬ (p.2.active = true ∧
          is_fuel_feasible_with_return geo p.2 hub = true)) := by
  induction l with
  | nil => intro acc; simp
  | cons q l ih =>
    intro acc
    rw [List.foldl_cons, ih]
    by_cases hq : q.2.active = true ∧ is_fuel_feasible_with_return geo q.2 hub = true
    · rw [escalationStep_elig geo hub acc q hq.1 hq.2]
      constructor
      · rintro ⟨hnone, -⟩
        cases acc with
        | none => cases hnone
        | some b =>
          rcases b with ⟨bi, bc⟩
          by_cases hlt : escalationCost geo hub q.2 < bc <;> simp [hlt] at hnone
      · rintro ⟨hacc, hall⟩
        exact absurd hq (hall q (List.mem_cons_self q l))
    · rw [escalationStep_skip geo hub acc q hq]
      constructor
      · rintro ⟨hacc, hall⟩
        refine ⟨hacc, ?_⟩
        intro p hp
        rcases List.mem_cons.mp hp with rfl | hp'
        · exact hq
        · exact hall p hp'
      · rintro ⟨hacc, hall⟩
        exact ⟨hacc, fun p hp => hall p (List.mem_cons_of_mem q hp)⟩

theorem escalationFold_mono (l : List (Nat × Truck)) :
    ∀ (bi : Nat) (bc : ℚ) (i : Nat) (c : ℚ),
      l.foldl (escalationStep geo hub) (some (bi, bc)) = some (i, c) → c ≤ bc := by
  induction l with
  | nil =>
    intro bi bc i c h
    simp only [List.foldl_nil, Option.some.injEq, Prod.mk.injEq] at h
    rw [← h.2]
  | cons q l ih =>
    intro bi bc i c h
    rw [List.foldl_cons] at h
    by_cases hq : q.2.active = true ∧ is_fuel_feasible_with_return geo q.2 hub = true
    · rw [escalationStep_elig geo hub _ q hq.1 hq.2] at h
      simp only at h
      split at h
      · have := ih q.1 (escalationCost geo hub q.2) i c h
        linarith [this]
      · exact ih bi bc i c h
    · rw [escalationStep_skip geo hub _ q hq] at h
      exact ih bi bc i c h

theorem escalationFold_min (l : List (Nat × Truck)) :
    ∀ (acc : Option (Nat × ℚ)) (i : Nat) (c : ℚ),
      l.foldl (escalationStep geo hub) acc = some (i, c) →
      ∀ p ∈ l, (p.2.active = true ∧ is_fuel_feasible_with_return geo p.2 hub = true) →
        c ≤ escalationCost geo hub p.2 := by
  induction l with
  | nil => intro acc i c _ p hp; cases hp
  | cons q l ih =>
    intro acc i c h p hp hpe
    rw [List.foldl_cons] at h
    rcases List.mem_cons.mp hp with rfl | hp'
    · -- p is the head; after processing it the accumulator is ≤ cost p
      rw [escalationStep_elig geo hub acc p hpe.1 hpe.2] at h
      cases acc with
      | none =>
        simp only at h
        exact escalationFold_mono geo hub l p.1 (escalationCost geo hub p.2) i c h
      | some b =>
        rcases b with ⟨bi, bc⟩
        simp only at h
        split at h
        · rename_i hlt
          exact escalationFold_mono geo hub l p.1 (escalationCost geo hub p.2) i c h
        · rename_i hge
          have := escalationFold_mono geo hub l bi bc i c h
          linarith [not_lt.mp hge]
    · exact ih (escalationStep geo hub acc q) i c h p hp' hpe

theorem escalationFold_src (l : List (Nat × Truck)) :
    ∀ (acc : Option (Nat × ℚ)) (i : Nat) (c : ℚ),
      l.foldl (escalationStep geo hub) acc = some (i, c) →
      acc = some (i, c) ∨ ∃ p ∈ l, p.1 = i ∧
        (p.2.active = true ∧ is_fuel_feasible_with_return geo p.2 hub = true) ∧
        c = escalationCost geo hub p.2 := by
  induction l with
  | nil => intro acc i c h; left; simpa using h
  | cons q l ih =>
    intro acc i c h
    rw [List.foldl_cons] at h
    rcases ih (escalationStep geo hub acc q) i c h with hacc | ⟨p, hp, hpi, hpe, hpc⟩
    · by_cases hq : q.2.active = true ∧ is_fuel_feasible_with_return geo q.2 hub = true
      · rw [escalationStep_elig geo hub acc q hq.1 hq.2] at hacc
        cases acc with
        | none =>
          simp only [Option.some.injEq, Prod.mk.injEq] at hacc
          right
          exact ⟨q, List.mem_cons_self q l, hacc.1, hq, hacc.2.symm⟩
        | some b =>
          rcases b with ⟨bi, bc⟩
          simp only at hacc
          split at hacc
          · simp only [Option.some.injEq, Prod.mk.injEq] at hacc
            right
            exact ⟨q, List.mem_cons_self q l, hacc.1, hq, hacc.2.symm⟩
          · left; exact hacc
      · rw [escalationStep_skip geo hub acc q hq] at hacc
        left; exact hacc
    · right; exact ⟨p, List.mem_cons_of_mem q hp, hpi, hpe, hpc⟩

end EscalationFold

end RouteOpt

namespace RouteOpt

theorem updateTruckAt_eq_set (trucks : List Truck) (i : Nat) (t : Truck)
    (f : Truck → Truck) (h : trucks[i]? = some t) :
    updateTruckAt trucks i f = trucks.set i (f t) := by
  unfold updateTruckAt
  rw [h]

/-- **C6.** Escalating an `UNASSIGNED`, non-frozen hub considers exactly
the active trucks passing the round-trip fuel check: when none qualifies,
nothing in the world is mutated; otherwise the hub is assigned (via
`assign_hub_to_truck`) to a cost-minimizing eligible truck, which receives
the new task as `current_task` when idle with no current task and otherwise
appended to its queue (reordered at a safe decision point); every other
truck is untouched. -/
theorem escalation_unassigned_spec (geo : Geo) (w : WorldState) (hid : String)
    (h : Hub) (hf : findHub w.hubs hid = some h)
    (hu : h.ownership_state = HubOwnershipState.UNASSIGNED)
    (hfz : h.frozen_at_commit = false) :
    ((∀ t ∈ w.trucks, ¬ (t.active = true ∧
        is_fuel_feasible_with_return geo t h = true)) →
      handle_demand_escalation geo w hid = w) ∧
    ((∃ t ∈ w.trucks, t.active = true ∧
        is_fuel_feasible_with_return geo t h = true) →
      ∃ (i : Nat) (t : Truck), w.trucks[i]? = some t ∧
        t.active = true ∧ is_fuel_feasible_with_return geo t h = true ∧
        (∀ u ∈ w.trucks, u.active = true →
          is_fuel_feasible_with_return geo u h = true →
          escalationCost geo h t ≤ escalationCost geo h u) ∧
        (handle_demand_escalation geo w hid).hubs =
          updateHub w.hubs hid (fun g =>
            { g with ownership_state := HubOwnershipState.ASSIGNED,
                     owner_truck_id := some t.id }) ∧
        (handle_demand_escalation geo w hid).trucks = w.trucks.set i
          (if t.status = "idle" ∧ t.current_task = none then
            { t with current_task := some (Task.mk hid
                (get_urgency_weight h.demand_intensity) w.simulation_time) }
          else if is_at_safe_decision_point
              { t with future_task_queue := t.future_task_queue ++
                [Task.mk hid (get_urgency_weight h.demand_intensity)
                  w.simulation_time] } then
            reorder_task_queue_at_decision_point
              (updateHub w.hubs hid (fun g =>
                { g with ownership_state := HubOwnershipState.ASSIGNED,
                         owner_truck_id := some t.id }))
              { t with future_task_queue := t.future_task_queue ++
                [Task.mk hid (get_urgency_weight h.demand_intensity)
                  w.simulation_time] }
          else
            { t with future_task_queue := t.future_task_queue ++
              [Task.mk hid (get_urgency_weight h.demand_intensity)
                w.simulation_time] }) ∧
        (∀ j : Nat, j ≠ i →
          (handle_demand_escalation geo w hid).trucks[j]? = w.trucks[j]?)) := by
  have hne1 : ¬ h.ownership_state = HubOwnershipState.ASSIGNED := by
    rw [hu]; decide
  constructor
  · intro hall
    have hnone : escalationBestTruck geo w.trucks h = none := by
      unfold escalationBestTruck
      rw [escalationFold_none]
      refine ⟨rfl, ?_⟩
      intro p hp
      exact hall p.2 (List.getElem?_mem (List.mk_mem_enum_iff_getElem?.mp hp))
    simp [handle_demand_escalation, hf, hne1, hu, hfz, hnone,
      HubOwnershipState.UNASSIGNED, HubOwnershipState.ASSIGNED]
  · intro hex
    cases hbest : escalationBestTruck geo w.trucks h with
    | none =>
      exfalso
      rcases hex with ⟨t, ht, hte⟩
      unfold escalationBestTruck at hbest
      rw [escalationFold_none] at hbest
      rcases List.mem_iff_getElem?.mp ht with ⟨i, hi⟩
      exact hbest.2 (i, t) (List.mk_mem_enum_iff_getElem?.mpr hi) hte
    | some b =>
      rcases b with ⟨i, c⟩
      have hfold : w.trucks.enum.foldl (escalationStep geo h) none = some (i, c) := hbest
      rcases escalationFold_src geo h _ none i c hfold with hacc | ⟨p, hp, hpi, hpe, hpc⟩
      · cases hacc
      have hti : w.trucks[i]? = some p.2 := by
        rw [← hpi]
        exact List.mk_mem_enum_iff_getElem?.mp hp
      have hmin : ∀ u ∈ w.trucks, u.active = true →
          is_fuel_feasible_with_return geo u h = true →
          escalationCost geo h p.2 ≤ escalationCost geo h u := by
        intro u hu' ha' hfu
        rcases List.mem_iff_getElem?.mp hu' with ⟨j, hj⟩
        have := escalationFold_min geo h _ none i c hfold (j, u)
          (List.mk_mem_enum_iff_getElem?.mpr hj) ⟨ha', hfu⟩
        rw [hpc] at this
        exact this
      have hassign : assign_hub_to_truck w hid p.2.id =
          (true, { w with hubs := updateHub w.hubs hid (fun g =>
            { g with ownership_state := HubOwnershipState.ASSIGNED,
                     owner_truck_id := some p.2.id }) }) := by
        unfold assign_hub_to_truck
        rw [hf]
        simp [hu, HubOwnershipState.UNASSIGNED, HubOwnershipState.ASSIGNED,
          HubOwnershipState.COMPLETED]
      refine ⟨i, p.2, hti, hpe.1, hpe.2, hmin, ?_, ?_, ?_⟩
      · simp [handle_demand_escalation, hf, hne1, hu, hfz, hbest, hti, hassign,
          updateTruckAt_eq_set _ i p.2 _ hti,
          HubOwnershipState.UNASSIGNED, HubOwnershipState.ASSIGNED]
      · simp [handle_demand_escalation, hf, hne1, hu, hfz, hbest, hti, hassign,
          updateTruckAt_eq_set _ i p.2 _ hti,
          HubOwnershipState.UNASSIGNED, HubOwnershipState.ASSIGNED]
      · intro j hj
        simp [handle_demand_escalation, hf, hne1, hu, hfz, hbest, hti, hassign,
          updateTruckAt_eq_set _ i p.2 _ hti, List.getElem?_set, Ne.symm hj,
          HubOwnershipState.UNASSIGNED, HubOwnershipState.ASSIGNED]

end RouteOpt

namespace RouteOpt

/-- A freshly created, unassigned, non-frozen hub for the C6 witness. -/
def hubN : Hub :=
  mkHub "H_N" 13 80 2 "High" HubOwnershipState.UNASSIGNED none false

/-- An idle truck with plenty of fuel for the C6 witness. -/
def truckE : Truck := mkTruck "T1" 1000 "idle"

/-- The world of the C6 witness. -/
def worldE : WorldState :=
  { hubs := [hubN], trucks := [truckE], ai_decisions := [],
    simulation_running := true, simulation_time := 7,
    initial_hubs_with_demand := [], simulation_phase := "executing",
    hubs_frozen := true }

/-- Witness for C6: in the concrete world an eligible truck exists, and the
escalation hands the hub to an active, fuel-feasible truck. -/
theorem escalation_unassigned_spec_witness :
    ∃ (i : Nat) (t : Truck), worldE.trucks[i]? = some t ∧
      t.active = true ∧ is_fuel_feasible_with_return geoC t hubN = true := by
  have hfuel : is_fuel_feasible_with_return geoC truckE hubN = true := by
    simp only [is_fuel_feasible_with_return, geoC, truckE, hubN, mkTruck, mkHub,
      FUEL_CONSUMPTION_RATE, centralHubLatitude, centralHubLongitude]
    norm_num
  rcases (escalation_unassigned_spec geoC worldE "H_N" hubN (by rfl) (by rfl)
      (by rfl)).2 ⟨truckE, by simp [worldE], rfl, hfuel⟩ with
    ⟨i, t, h1, h2, h3, -⟩
  exact ⟨i, t, h1, h2, h3⟩

end RouteOpt

namespace RouteOpt

/-- Frame relation of the commit planner: hub ids (and positions) are
preserved, and any hub carrying the central-depot id is untouched. -/
def HFrame (hubs0 hubs : List Hub) : Prop :=
  List.Forall₂ (fun h0 h => h.id = h0.id ∧ (h0.id = centralHubId → h = h0))
    hubs0 hubs

theorem HFrame_refl (l : List Hub) : HFrame l l :=
  List.forall₂_same.mpr (fun _ _ => ⟨rfl, fun _ => rfl⟩)

theorem HFrame_length {l0 l : List Hub} (h : HFrame l0 l) : l0.length = l.length :=
  List.Forall₂.length_eq h

theorem HFrame_get {l0 l : List Hub} (hF : HFrame l0 l) {i : Nat} {h0 : Hub}
    (hh0 : l0[i]? = some h0) :
    ∃ h, l[i]? = some h ∧ h.id = h0.id ∧ (h0.id = centralHubId → h = h0) := by
  rcases List.getElem?_eq_some.mp hh0 with ⟨hi, hval⟩
  rcases List.forall₂_iff_get.mp hF with ⟨hlen, hrel⟩
  have hi' : i < l.length := by omega
  refine ⟨l.get ⟨i, hi'⟩, ?_, ?_⟩
  · simp [List.getElem?_eq_some, hi']
  · have := hrel i hi hi'
    simp only [List.get_eq_getElem] at this
    rw [hval] at this
    simpa [List.get_eq_getElem] using this

theorem HFrame_set {l0 l : List Hub} (hF : HFrame l0 l) {i : Nat} {h0 : Hub}
    (hh0 : l0[i]? = some h0) (hnew : Hub) (hid : hnew.id = h0.id)
    (hcent : h0.id ≠ centralHubId) : HFrame l0 (l.set i hnew) := by
  rcases List.forall₂_iff_get.mp hF with ⟨hlen, hrel⟩
  rcases List.getElem?_eq_some.mp hh0 with ⟨hi, hval⟩
  refine List.forall₂_iff_get.mpr ⟨by simpa using hlen, ?_⟩
  intro j hj1 hj2
  by_cases hij : i = j
  · subst hij
    have : (l.set i hnew).get ⟨i, hj2⟩ = hnew := by
      simp [List.get_eq_getElem, List.getElem_set_self]
    rw [this, List.get_eq_getElem, hval]
    exact ⟨hid, fun hc => absurd hc hcent⟩
  · have : (l.set i hnew).get ⟨j, hj2⟩ = l.get ⟨j, by simpa using hj2⟩ := by
      simp [List.get_eq_getElem, List.getElem_set_ne hij]
    rw [this]
    exact hrel j hj1 (by simpa using hj2)

theorem HFrame_updateHub {l0 l : List Hub} (hF : HFrame l0 l) (hid : String)
    (hne : hid ≠ centralHubId) (f : Hub → Hub) (hfid : ∀ h, (f h).id = h.id) :
    HFrame l0 (updateHub l hid f) := by
  induction hF with
  | nil => exact List.Forall₂.nil
  | @cons h0 h l0t lt hrel htail ih =>
    unfold updateHub
    by_cases hh : h.id = hid
    · rw [if_pos hh]
      refine List.Forall₂.cons ⟨by rw [hfid h, hrel.1], ?_⟩ htail
      intro hc
      exact absurd (by rw [← hh]; exact hrel.1.trans hc) hne
    · rw [if_neg hh]
      exact List.Forall₂.cons hrel ih

theorem HFrame_assign {hubs0 : List Hub} (w : WorldState) (hid tid : String)
    (hF : HFrame hubs0 w.hubs) (hne : hid ≠ centralHubId) :
    HFrame hubs0 (assign_hub_to_truck w hid tid).2.hubs := by
  unfold assign_hub_to_truck
  cases hf : findHub w.hubs hid with
  | none => exact hF
  | some hub =>
    by_cases ha : hub.ownership_state = HubOwnershipState.ASSIGNED
    · by_cases ho : hub.owner_truck_id = some tid <;> simp [ha, ho] <;> exact hF
    · by_cases hc : hub.ownership_state = HubOwnershipState.COMPLETED
      · simp [ha, hc]
        exact hF
      · simp only [ha, hc, if_false]
        exact HFrame_updateHub hF hid hne _ (fun h => rfl)

theorem HFrame_updateHubAt {l0 l : List Hub} (hF : HFrame l0 l) (i : Nat)
    (h0 : Hub) (hh0 : l0[i]? = some h0) (hcent : h0.id ≠ centralHubId)
    (f : Hub → Hub) (hfid : ∀ h, (f h).id = h.id) :
    HFrame l0 (updateHubAt l i f) := by
  unfold updateHubAt
  cases hg : l[i]? with
  | none => exact hF
  | some h =>
    rcases HFrame_get hF hh0 with ⟨h', hh', hid', _⟩
    rw [hg] at hh'
    cases hh'
    exact HFrame_set hF hh0 (f h) (by rw [hfid h, hid']) hcent

theorem foldl_preserve {σ α : Type _} (f : σ → α → σ) (P : σ → Prop) :
    ∀ (l : List α) (s : σ), P s → (∀ s' x, x ∈ l → P s' → P (f s' x)) →
      P (l.foldl f s) := by
  intro l
  induction l with
  | nil => intro s hs _; exact hs
  | cons x l ih =>
    intro s hs hstep
    rw [List.foldl_cons]
    exact ih (f s x) (hstep s x (List.mem_cons_self x l) hs)
      (fun s' y hy => hstep s' y (List.mem_cons_of_mem x hy))

theorem buildHubInfo_mem (geo : Geo) (hubs : List Hub) (d : HubInfo)
    (hd : d ∈ buildHubInfo geo hubs) :
    ∃ h0, hubs[d.idx]? = some h0 ∧ h0.id = d.hub_id ∧ d.hub_id ≠ centralHubId := by
  unfold buildHubInfo at hd
  rcases List.mem_filterMap.mp hd with ⟨p, hp, hf⟩
  by_cases hc : p.2.id ≠ centralHubId ∧ 0 < p.2.demand_quantity
  · rw [if_pos hc] at hf
    cases hf
    exact ⟨p.2, List.mk_mem_enum_iff_getElem?.mp hp, rfl, hc.1⟩
  · rw [if_neg hc] at hf
    cases hf

end RouteOpt

namespace RouteOpt

theorem HFrame_corridorHubStep {hubs0 : List Hub} (activeIdxs : List Nat)
    (st : WorldState × List String × Nat) (d : HubInfo)
    (hne : d.hub_id ≠ centralHubId) (hst : HFrame hubs0 st.1.hubs) :
    HFrame hubs0 (corridorHubStep activeIdxs st d).1.hubs := by
  cases h1 : st.1.trucks[st.2.2]? with
  | none =>
    simp only [corridorHubStep, h1]
    exact hst
  | some t =>
    cases hsw : (if hasCapacity t = true then some st.2.2
        else activeIdxs.find? (fun ai =>
          match st.1.trucks[ai]? with
          | some a => hasCapacity a
          | none => false)) with
    | none =>
      simp only [corridorHubStep, h1, hsw]
      exact hst
    | some ct =>
      cases h2 : st.1.trucks[ct]? with
      | none =>
        simp only [corridorHubStep, h1, hsw, h2]
        exact hst
      | some truck =>
        have hass := HFrame_assign st.1 d.hub_id truck.id hst hne
        cases hok : (assign_hub_to_truck st.1 d.hub_id truck.id).1 with
        | true =>
          simp only [corridorHubStep, h1, hsw, h2, hok, if_true]
          simpa using hass
        | false =>
          simp only [corridorHubStep, h1, hsw, h2, hok]
          simpa using hass

theorem HFrame_corridorStep {hubs0 : List Hub} (geo : Geo)
    (activeIdxs : List Nat) (st : WorldState × List String)
    (corridor : List HubInfo) (hne : ∀ d ∈ corridor, d.hub_id ≠ centralHubId)
    (hst : HFrame hubs0 st.1.hubs) :
    HFrame hubs0 (corridorStep geo activeIdxs st corridor).1.hubs := by
  cases corridor with
  | nil =>
    simp only [corridorStep]
    exact hst
  | cons d0 rest =>
    cases h1 : st.1.hubs[d0.idx]? with
    | none =>
      simp only [corridorStep, h1]
      exact hst
    | some first_hub =>
      cases h2 : selectCorridorTruck geo st.1 activeIdxs first_hub with
      | none =>
        simp only [corridorStep, h1, h2]
        exact hst
      | some t0 =>
        rcases t0 with ⟨t0, c0⟩
        simp only [corridorStep, h1, h2]
        have := foldl_preserve (corridorHubStep activeIdxs)
          (fun s => HFrame hubs0 s.1.hubs) (d0 :: rest) (st.1, st.2, t0) hst
          (fun s' x hx hs' => HFrame_corridorHubStep activeIdxs s' x (hne x hx) hs')
        simpa using this

theorem HFrame_fallbackStep {hubs0 : List Hub} (geo : Geo)
    (activeIdxs : List Nat) (st : WorldState × List String) (d : HubInfo)
    (hne : d.hub_id ≠ centralHubId) (hst : HFrame hubs0 st.1.hubs) :
    HFrame hubs0 (fallbackStep geo activeIdxs st d).1.hubs := by
  cases h1 : st.1.hubs[d.idx]? with
  | none =>
    simp only [fallbackStep, h1]
    exact hst
  | some hub =>
    cases h2 : fallbackBest geo activeIdxs st.1 hub with
    | none =>
      simp only [fallbackStep, h1, h2]
      exact hst
    | some b =>
      rcases b with ⟨bt, bd⟩
      cases h3 : st.1.trucks[bt]? with
      | none =>
        simp only [fallbackStep, h1, h2, h3]
        exact hst
      | some best_truck =>
        have hass := HFrame_assign st.1 d.hub_id best_truck.id hst hne
        cases hok : (assign_hub_to_truck st.1 d.hub_id best_truck.id).1 with
        | true =>
          simp only [fallbackStep, h1, h2, h3, hok, if_true]
          simpa using hass
        | false =>
          simp only [fallbackStep, h1, h2, h3, hok]
          simpa using hass

/-- Phases 1-4 preserve hub positions, ids, and centrally-identified hubs. -/
theorem HFrame_commitPhases {hubs0 : List Hub} (geo : Geo)
    (activeIdxs : List Nat) (hubInfo : List HubInfo) (w1 : WorldState)
    (hw1 : HFrame hubs0 w1.hubs)
    (hd : ∀ d ∈ hubInfo, d.hub_id ≠ centralHubId)
    (hd2 : ∀ d ∈ hubInfo, ∃ h0, hubs0[d.idx]? = some h0 ∧ h0.id ≠ centralHubId) :
    HFrame hubs0 (commitPhases geo activeIdxs hubInfo w1).2.hubs := by
  simp only [commitPhases]
  have hP1 : HFrame hubs0
      (((firstOccurrences (hubInfo.map (angleBin geo))).map (fun k =>
          corridorSort w1.hubs (hubInfo.filter (fun d => angleBin geo d = k)))).foldl
        (corridorStep geo activeIdxs) (w1, [])).1.hubs := by
    apply foldl_preserve (corridorStep geo activeIdxs)
      (fun s : WorldState × List String => HFrame hubs0 s.1.hubs) _ _ hw1
    intro s' c hcmem hs'
    apply HFrame_corridorStep geo activeIdxs s' c ?_ hs'
    intro d hdc
    rcases List.mem_map.mp hcmem with ⟨k, _, rfl⟩
    have hdm : d ∈ hubInfo := by
      have := List.mem_mergeSort.mp hdc
      exact (List.mem_filter.mp this).1
    exact hd d hdm
  have hP2 : HFrame hubs0
      ((hubInfo.filter (fun d => ¬ d.hub_id ∈
          (((firstOccurrences (hubInfo.map (angleBin geo))).map (fun k =>
              corridorSort w1.hubs (hubInfo.filter (fun d => angleBin geo d = k)))).foldl
            (corridorStep geo activeIdxs) (w1, [])).2)).foldl
        (fallbackStep geo activeIdxs)
        (((firstOccurrences (hubInfo.map (angleBin geo))).map (fun k =>
            corridorSort w1.hubs (hubInfo.filter (fun d => angleBin geo d = k)))).foldl
          (corridorStep geo activeIdxs) (w1, []))).1.hubs := by
    apply foldl_preserve (fallbackStep geo activeIdxs)
      (fun s : WorldState × List String => HFrame hubs0 s.1.hubs) _ _ hP1
    intro s' d hdm hs'
    exact HFrame_fallbackStep geo activeIdxs s' d
      (hd d (List.mem_filter.mp hdm).1) hs'
  by_cases hv : (hubInfo.all (fun d =>
      match ((hubInfo.filter (fun d => ¬ d.hub_id ∈
          (((firstOccurrences (hubInfo.map (angleBin geo))).map (fun k =>
              corridorSort w1.hubs (hubInfo.filter (fun d => angleBin geo d = k)))).foldl
            (corridorStep geo activeIdxs) (w1, [])).2)).foldl
        (fallbackStep geo activeIdxs)
        (((firstOccurrences (hubInfo.map (angleBin geo))).map (fun k =>
            corridorSort w1.hubs (hubInfo.filter (fun d => angleBin geo d = k)))).foldl
          (corridorStep geo activeIdxs) (w1, []))).1.hubs[d.idx]? with
      | some h => h.ownership_state = HubOwnershipState.ASSIGNED
      | none => false)) = true
  · rw [if_neg (by simpa using hv)]
    simp only
    refine foldl_preserve _ (fun hs => HFrame hubs0 hs) _ _ hP2 ?_
    intro hs d hdm hhs
    rcases hd2 d hdm with ⟨h0, hh0, hcent⟩
    exact HFrame_updateHubAt hhs d.idx h0 hh0 hcent _ (fun h => rfl)
  · rw [if_pos (by simpa using hv)]
    exact hP2

/-- The commit planner preserves hub positions and ids, and never touches a
hub whose id is the central depot's. -/
theorem HFrame_commit (geo : Geo) (w0 : WorldState) :
    HFrame w0.hubs (assign_hubs_to_trucks geo w0).2.hubs := by
  simp only [assign_hubs_to_trucks]
  cases he : (buildHubInfo geo w0.hubs).isEmpty with
  | true =>
    rw [if_pos (by simp [he])]
    exact HFrame_refl _
  | false =>
    rw [if_neg (by simp [he])]
    cases ha : (List.filterMap (fun p => if p.2.active = true then some p.1 else none)
        (({ w0 with trucks := w0.trucks.map (fun t =>
          if t.active = true then
            { t with route_plan := ([] : List String),
                     assigned_hubs := ([] : List String),
                     completed_deliveries := ([] : List String),
                     status := "idle" }
          else t) } : WorldState).trucks.enum)).isEmpty with
    | true =>
      rw [if_pos (by simp [ha])]
      exact HFrame_refl _
    | false =>
      rw [if_neg (by simp [ha])]
      apply HFrame_commitPhases
      · exact HFrame_refl _
      · intro d hdm
        rcases buildHubInfo_mem geo w0.hubs d hdm with ⟨h0, _, _, hne⟩
        exact hne
      · intro d hdm
        rcases buildHubInfo_mem geo w0.hubs d hdm with ⟨h0, hg, hid, hne⟩
        exact ⟨h0, hg, by rw [hid]; exact hne⟩

end RouteOpt

namespace RouteOpt

/-- **C2** (corrected).  When the commit invoked by `start_sim` fails and
the pre-commit state is the pristine pre-start configuration — every
non-central hub `UNASSIGNED`, unowned and unfrozen, and phase `pre_start` —
the rollback restores every hub's `ownership_state`, `owner_truck_id` and
`frozen_at_commit` and the `simulation_phase` to their pre-commit values.
(For non-pristine pre-commit states the rollback *resets* rather than
restores; see the counterexample.) -/
theorem start_rollback_restores_pristine (geo : Geo) (w : WorldState)
    (hfail : (start_sim geo w).1 = false)
    (hpristine : ∀ h ∈ w.hubs, h.id ≠ centralHubId →
      h.ownership_state = HubOwnershipState.UNASSIGNED ∧
      h.owner_truck_id = none ∧ h.frozen_at_commit = false)
    (hphase : w.simulation_phase = "pre_start") :
    List.Forall₂ (fun h0 h' =>
      h'.ownership_state = h0.ownership_state ∧
      h'.owner_truck_id = h0.owner_truck_id ∧
      h'.frozen_at_commit = h0.frozen_at_commit) w.hubs (start_sim geo w).2.hubs ∧
    (start_sim geo w).2.simulation_phase = w.simulation_phase := by
  simp only [start_sim] at hfail ⊢
  cases hb : (assign_hubs_to_trucks geo
      { w with hubs_frozen := true, simulation_phase := "committing" }).1 with
  | true => simp [hb] at hfail
  | false =>
    rw [if_pos (show ¬ false = true by decide)]
    have hF : HFrame w.hubs (assign_hubs_to_trucks geo
        { w with hubs_frozen := true, simulation_phase := "committing" }).2.hubs :=
      HFrame_commit geo
        { w with hubs_frozen := true, simulation_phase := "committing" }
    constructor
    · rcases List.forall₂_iff_get.mp hF with ⟨hlen, hrel⟩
      refine List.forall₂_iff_get.mpr ⟨by simpa using hlen, ?_⟩
      intro i h1 h2
      simp only [List.length_map] at h2
      have hmapget : (List.map rollbackHub (assign_hubs_to_trucks geo
          { w with hubs_frozen := true, simulation_phase := "committing" }).2.hubs).get
            ⟨i, by simpa using h2⟩ =
          rollbackHub ((assign_hubs_to_trucks geo
            { w with hubs_frozen := true, simulation_phase := "committing" }).2.hubs.get
              ⟨i, h2⟩) := by
        simp [List.get_eq_getElem]
      rw [hmapget]
      rcases hrel i h1 h2 with ⟨hid, hcentbeh⟩
      by_cases hcent : (w.hubs.get ⟨i, h1⟩).id = centralHubId
      · rw [hcentbeh hcent]
        unfold rollbackHub
        rw [if_pos hcent]
        exact ⟨rfl, rfl, rfl⟩
      · unfold rollbackHub
        rw [if_neg (by rw [hid]; exact hcent)]
        have hm : w.hubs.get ⟨i, h1⟩ ∈ w.hubs := List.get_mem w.hubs i h1
        rcases hpristine _ hm hcent with ⟨ho, hw, hfz⟩
        exact ⟨by rw [ho], by rw [hw], by rw [hfz]⟩
    · rw [hphase]

end RouteOpt

namespace RouteOpt

/-- A completed hub present before a re-commit. -/
def hubDoneB : Hub :=
  mkHub "H_OLD" 12 80 0 "High" HubOwnershipState.COMPLETED none true

/-- A pre-commit world in which a hub is already `COMPLETED` (a re-commit
while executing) and the commit will fail (no trucks at all). -/
def worldC2 : WorldState :=
  { hubs := [centralHub, hubDoneB, farHub], trucks := [], ai_decisions := [],
    simulation_running := true, simulation_time := 9,
    initial_hubs_with_demand := ["H_OLD"], simulation_phase := "executing",
    hubs_frozen := true }

/-- Counterexample for C2: the commit fails, but after the rollback the
`COMPLETED` hub's `ownership_state` is `UNASSIGNED`, not its pre-commit
value `COMPLETED` (and the phase becomes `pre_start`, not `executing`). -/
theorem start_rollback_resets_completed_hub :
    (start_sim geoC worldC2).1 = false ∧
    (worldC2.hubs.map Hub.ownership_state)[1]? =
      some HubOwnershipState.COMPLETED ∧
    ((start_sim geoC worldC2).2.hubs.map Hub.ownership_state)[1]? =
      some HubOwnershipState.UNASSIGNED ∧
    HubOwnershipState.UNASSIGNED ≠ HubOwnershipState.COMPLETED := by
  refine ⟨?_, rfl, ?_, by decide⟩
  · simp [start_sim, assign_hubs_to_trucks, buildHubInfo, worldC2, centralHub,
      hubDoneB, farHub, mkHub, geoC, centralHubId, List.enum]
  · simp [start_sim, assign_hubs_to_trucks, buildHubInfo, worldC2, centralHub,
      hubDoneB, farHub, mkHub, geoC, centralHubId, List.enum, rollbackHub,
      HubOwnershipState.UNASSIGNED, HubOwnershipState.COMPLETED]

/-- A pristine pre-start world whose commit fails (no trucks). -/
def worldW : WorldState :=
  { hubs := [centralHub, farHub], trucks := [], ai_decisions := [],
    simulation_running := false, simulation_time := 0,
    initial_hubs_with_demand := [], simulation_phase := "pre_start",
    hubs_frozen := false }

/-- Witness for C2: on the concrete pristine world whose commit fails, the
rollback restores the ownership fields and the phase. -/
theorem start_rollback_restores_pristine_witness :
    List.Forall₂ (fun h0 h' =>
      h'.ownership_state = h0.ownership_state ∧
      h'.owner_truck_id = h0.owner_truck_id ∧
      h'.frozen_at_commit = h0.frozen_at_commit) worldW.hubs
        (start_sim geoC worldW).2.hubs ∧
    (start_sim geoC worldW).2.simulation_phase = worldW.simulation_phase := by
  apply start_rollback_restores_pristine geoC worldW
  · simp [start_sim, assign_hubs_to_trucks, buildHubInfo, worldW, centralHub,
      farHub, mkHub, geoC, centralHubId, List.enum]
  · intro h hm hne
    simp only [worldW, List.mem_cons, List.mem_singleton, List.not_mem_nil,
      or_false] at hm
    rcases hm with rfl | rfl
    · exact absurd rfl hne
    · exact ⟨rfl, rfl, rfl⟩
  · rfl

end RouteOpt
